import Mathlib

/-!
# Terratag tagging core: `internal/tagging/tagging.go`

A shallow embedding of the tagging core (`TagBlock`, `RemoveTerratagTags`,
`TagResource`, `HasResourceTagFn`, `defaultTaggingFn`,
`ParseHclValueStringToTokens`) and theorems about it.

Conventions of the embedding.

* Go strings are Lean `String`s. The texts handled here are HCL source text.
* `hclwrite.Tokens` is a type parameter `Tok`: the core never looks inside a token
  sequence, it only obtains one from the HCL parser and stores it in a block.
* `*hclwrite.Block` is a pointer and `TerratagLocal.Found` is a Go map, so callees
  mutate them in place. The embedding passes them explicitly: every function reads
  them from its arguments and returns their final contents in an `Exec` record.
* A Go function returning `(v, err)` returns the pair `(v, err?)`; a call that
  panics has `ret = none`.
* The packages `convert`, `tag_keys`, `terraform`, the three custom tagging functions
  and the HCL library are not part of the file under study: they are the fields of
  the record `Env`, over which all general theorems quantify.
* Calls to `log.Print`/`log.Println` only write to the log and are left out.
-/

namespace Terratag

/-! ## Data model -/

/-- A Go `error` value. -/
structure GoError where
  msg : String
deriving DecidableEq, Repr

/-- The type `common.Version`: the Terraform language version of the run. -/
structure Version where
  Major : Int
  Minor : Int
deriving DecidableEq, Repr

/-- Contents of an `hclwrite.Block`: its type name, its labels, the attributes of its
body (attribute name to expression tokens) and its nested blocks (type name and body
tokens). An attribute name has at most one value, as in an HCL body. -/
structure Block (Tok : Type) where
  typeName : String
  labels : List String
  attrs : String → Option Tok
  nested : List (String × Tok)

/-- The call `block.Body().SetAttributeRaw(name, tokens)`: the attribute `name` now holds
`tokens`, whether or not it existed; nothing else changes. -/
def Block.SetAttributeRaw {Tok : Type} (b : Block Tok) (name : String) (tokens : Tok) :
    Block Tok :=
  ⟨b.typeName, b.labels, fun n => if n = name then some tokens else b.attrs n, b.nested⟩

/-- The call `block.Body().RemoveAttribute(name)`: the attribute `name` is gone; nothing
else changes. -/
def Block.RemoveAttribute {Tok : Type} (b : Block Tok) (name : String) : Block Tok :=
  ⟨b.typeName, b.labels, fun n => if n = name then none else b.attrs n, b.nested⟩

/-- The type `common.TerratagLocal`. `Found` is the prior-tags index, a Go map from
lookup key to tokens; a missing key reads as `none` (Go: the nil token slice). -/
structure TerratagLocal (Tok : Type) where
  Found : String → Option Tok
  Added : String

/-- The struct `TagBlockArgs`. -/
structure TagBlockArgs (Tok : Type) where
  Filename : String
  Block : Block Tok
  Tags : String
  Terratag : TerratagLocal Tok
  TagId : String
  TfVersion : Version

/-- The struct `Result`. -/
structure Result where
  SwappedTagsStrings : List String
deriving DecidableEq, Repr

/-- What a call leaves behind: `ret` is the returned Go value (`none` when the call
panicked), `Block` and `Terratag` are the contents of the block and of the prior-tags
index when the call ends. -/
structure Exec (Tok : Type) (α : Type) where
  ret : Option α
  Block : Block Tok
  Terratag : TerratagLocal Tok

/-- What `convert.MoveExistingTags` leaves behind: its two return values and the contents
of the block and of the prior-tags index after it ran. -/
structure Moved (Tok : Type) where
  hasExistingTags : Bool
  err : Option GoError
  Block : Block Tok
  Terratag : TerratagLocal Tok

/-- The type `TagResourceFn`. -/
abbrev TagResourceFn (Tok : Type) : Type :=
  TagBlockArgs Tok → Exec Tok (Option Result × Option GoError)

/-- The collaborators of the tagging core, none of which is defined in `tagging.go`.
`ParseConfig src` stands for `hclwrite.ParseConfig` on the source text `src`: it is `none`
when the diagnostics have errors, and otherwise the attributes of the body of the parsed
file (attribute name to expression tokens). -/
structure Env (Tok : Type) where
  MoveExistingTags : String → TerratagLocal Tok → Block Tok → String → Moved Tok
  GetExistingTagsExpression : Option Tok → Version → String
  GetTerratagAddedKey : String → String
  GetResourceExistingTagsKey : String → Block Tok → String
  GetResourceType : Block Tok → String
  ParseConfig : String → Option (String → Option Tok)
  tagAutoscalingGroup : TagResourceFn Tok
  tagContainerCluster : TagResourceFn Tok
  tagAksK8sCluster : TagResourceFn Tok

/-! ## Go standard library: `strings.TrimSpace` and the regular expression -/

/-- Go `unicode.IsSpace`: the Latin-1 spaces `\t`, `\n`, `\v`, `\f`, `\r`, space, U+0085 and
U+00A0, and beyond Latin-1 the code points with the Unicode property White_Space. -/
def isSpace (c : Char) : Bool :=
  let n := c.toNat
  n = 0x09 || n = 0x0A || n = 0x0B || n = 0x0C || n = 0x0D || n = 0x20 || n = 0x85 ||
  n = 0xA0 || n = 0x1680 || (0x2000 ≤ n && n ≤ 0x200A) || n = 0x2028 || n = 0x2029 ||
  n = 0x202F || n = 0x205F || n = 0x3000

/-- Go `strings.TrimSpace`: drop leading and trailing white space. -/
def TrimSpace (s : String) : String :=
  String.mk ((s.data.dropWhile isSpace).reverse.dropWhile isSpace).reverse

/-- The pieces a pattern such as `(?s)\{.*\}` is made of: a literal character, or `.*`
under the flag `s` (any characters, newlines included, as many as possible). -/
inductive RegexItem where
  | lit (c : Char)
  | anyStar
deriving DecidableEq, Repr

/-- Greedy `.*` followed by the continuation `k`: first let `.*` take the next character
and only when that fails stop here. This is the preference order of Go's leftmost-first
matching. The result is the matched text. -/
def matchStar (k : List Char → Option (List Char)) : List Char → Option (List Char)
  | [] => k []
  | x :: xs =>
    match matchStar k xs with
    | some m => some (x :: m)
    | none => k (x :: xs)

/-- Match a pattern at the start of the input; the result is the matched text. -/
def matchHere : List RegexItem → List Char → Option (List Char)
  | [], _ => some []
  | RegexItem.lit c :: p, xs =>
    match xs with
    | [] => none
    | x :: rest => if x = c then (matchHere p rest).map (fun m => x :: m) else none
  | RegexItem.anyStar :: p, xs => matchStar (matchHere p) xs

/-- Leftmost match: try every start position from left to right. -/
def findFrom (p : List RegexItem) : List Char → Option (List Char)
  | [] => matchHere p []
  | x :: xs =>
    match matchHere p (x :: xs) with
    | some m => some m
    | none => findFrom p xs

/-- The compiled pattern `(?s)\{.*\}` of `RemoveTerratagTags`. The pattern is a constant
that compiles, so the error branch after `regexp.Compile` is never taken. -/
def bracePattern : List RegexItem :=
  [RegexItem.lit '\x7b', RegexItem.anyStar, RegexItem.lit '\x7d']

/-- Go `r.MatchString(s)` for the pattern above. -/
def MatchString (s : String) : Bool :=
  (findFrom bracePattern s.data).isSome

/-- Go `r.FindString(s)` for the pattern above: the text of the leftmost match, the empty
string when there is none. -/
def FindString (s : String) : String :=
  match findFrom bracePattern s.data with
  | some m => String.mk m
  | none => ""

/-! ## The functions of `tagging.go` -/

/-- `ParseHclValueStringToTokens`: parse `"tempKey = " + TrimSpace(s)` and return the
expression tokens of the attribute `tempKey`. The result `none` is a panic: the explicit one
when the diagnostics have errors, or the nil dereference when the parsed file has no
attribute `tempKey`. -/
def ParseHclValueStringToTokens {Tok : Type} (env : Env Tok) (hclValueString : String) :
    Option Tok :=
  match env.ParseConfig ("tempKey = " ++ TrimSpace hclValueString) with
  | none => none
  | some file => file "tempKey"

/-- `TagBlock`. -/
def TagBlock {Tok : Type} (env : Env Tok) (args : TagBlockArgs Tok) :
    Exec Tok (String × Option GoError) :=
  let moved := env.MoveExistingTags args.Filename args.Terratag args.Block args.TagId
  match moved.err with
  | some err => ⟨some ("", some err), moved.Block, moved.Terratag⟩
  | none =>
    let terratagAddedKey := "local." ++ env.GetTerratagAddedKey args.Filename
    let newTagsValue :=
      if moved.hasExistingTags then
        let existingTagsKey := env.GetResourceExistingTagsKey args.Filename moved.Block
        let existingTagsExpression :=
          env.GetExistingTagsExpression (moved.Terratag.Found existingTagsKey) args.TfVersion
        "merge( " ++ existingTagsExpression ++ ", " ++ terratagAddedKey ++ ")"
      else terratagAddedKey
    let newTagsValue :=
      if args.TfVersion.Major = 0 ∧ args.TfVersion.Minor = 11 then
        "\"$\x7b" ++ newTagsValue ++ "\x7d\""
      else newTagsValue
    match ParseHclValueStringToTokens env newTagsValue with
    | none => ⟨none, moved.Block, moved.Terratag⟩
    | some newTagsValueTokens =>
      ⟨some (newTagsValue, none),
        moved.Block.SetAttributeRaw args.TagId newTagsValueTokens, moved.Terratag⟩

/-- `defaultTaggingFn`. -/
def defaultTaggingFn {Tok : Type} (env : Env Tok) : TagResourceFn Tok := fun args =>
  let r := TagBlock env args
  match r.ret with
  | none => ⟨none, r.Block, r.Terratag⟩
  | some (_, some err) => ⟨some (none, some err), r.Block, r.Terratag⟩
  | some (tagBlock, none) => ⟨some (some ⟨[tagBlock]⟩, none), r.Block, r.Terratag⟩

/-- `RemoveTerratagTags`. -/
def RemoveTerratagTags {Tok : Type} (env : Env Tok) : TagResourceFn Tok := fun args =>
  let moved := env.MoveExistingTags args.Filename args.Terratag args.Block args.TagId
  match moved.err with
  | some err => ⟨some (some ⟨[]⟩, some err), moved.Block, moved.Terratag⟩
  | none =>
    if !moved.hasExistingTags then
      ⟨some (some ⟨[]⟩, none), moved.Block, moved.Terratag⟩
    else
      let existingTagsKey := env.GetResourceExistingTagsKey args.Filename moved.Block
      let existingTagsExpression :=
        env.GetExistingTagsExpression (moved.Terratag.Found existingTagsKey) args.TfVersion
      let hasOrigTags := MatchString existingTagsExpression
      if !hasOrigTags then
        ⟨some (some ⟨[existingTagsKey]⟩, none),
          moved.Block.RemoveAttribute args.TagId, moved.Terratag⟩
      else
        let origTagsValue := FindString existingTagsExpression
        match ParseHclValueStringToTokens env origTagsValue with
        | none => ⟨none, moved.Block, moved.Terratag⟩
        | some origTagsValueTokens =>
          ⟨some (some ⟨[origTagsValue]⟩, none),
            moved.Block.SetAttributeRaw args.TagId origTagsValueTokens, moved.Terratag⟩

/-- The map `resourceTypeToFnMap`: a missing key reads as `none` (Go: the nil function). -/
def resourceTypeToFnMap {Tok : Type} (env : Env Tok) (resourceType : String) :
    Option (TagResourceFn Tok) :=
  if resourceType = "aws_autoscaling_group" then some env.tagAutoscalingGroup
  else if resourceType = "google_container_cluster" then some env.tagContainerCluster
  else if resourceType = "azurerm_kubernetes_cluster" then some env.tagAksK8sCluster
  else none

/-- `HasResourceTagFn`. -/
def HasResourceTagFn {Tok : Type} (env : Env Tok) (resourceType : String) : Bool :=
  (resourceTypeToFnMap env resourceType).isSome

/-- `TagResource`. -/
def TagResource {Tok : Type} (env : Env Tok) : TagResourceFn Tok := fun args =>
  let resourceType := env.GetResourceType args.Block
  match resourceTypeToFnMap env resourceType with
  | some customTaggingFn => customTaggingFn args
  | none => defaultTaggingFn env args

/-! ## A concrete environment -/

/-- Modelled from the spec: `tag_keys` is not part of the file under study. The derived key
is "a deterministic function of `filename`" whose one documented value is
`main.tf ↦ terratag_added_main_tf`; here every dot of the filename becomes an underscore. -/
def GetFilenameSnake (filename : String) : String :=
  String.mk (filename.data.map (fun c => if c = '.' then '_' else c))

/-- Modelled from the spec: the prior-tags index is keyed "uniquely per (filename, block)";
here the key is made of the filename and the labels of the block. -/
def sampleExistingTagsKey (filename : String) (block : Block String) : String :=
  "terratag_found_" ++ GetFilenameSnake filename ++ "__" ++ "__".intercalate block.labels

/-- Modelled from the spec: `convert.MoveExistingTags` is not part of the file under study.
It "detects and extracts any existing tag attribute value into `priorTagsIndex` keyed by
(filename, block)": when the block has the attribute, its current value is recorded in the
index and `true` is reported; otherwise nothing changes and `false` is reported. -/
def sampleMoveExistingTags (filename : String) (terratag : TerratagLocal String)
    (block : Block String) (tagId : String) : Moved String :=
  match block.attrs tagId with
  | some v =>
    ⟨true, none, block,
      ⟨fun k => if k = sampleExistingTagsKey filename block then some v else terratag.Found k,
        terratag.Added⟩⟩
  | none => ⟨false, none, block, terratag⟩

/-- A stand-in for the three custom tagging functions, which are not part of the file under
study: it changes nothing and returns `(nil, nil)`. -/
def sampleCustomFn : TagResourceFn String :=
  fun args => ⟨some (none, none), args.Block, args.Terratag⟩

/-- What follows the leading text `lead` in `xs`, when `xs` starts with it. -/
def afterLeading : List Char → List Char → Option (List Char)
  | [], xs => some xs
  | _ :: _, [] => none
  | c :: lead, x :: xs => if x = c then afterLeading lead xs else none

/-- A stand-in for the HCL parser on sources of the form `name = expression`, where a token
sequence is represented by its source text: a source `tempKey = e` with non-empty `e` parses
to a file whose one attribute `tempKey` holds `e`; every other source is rejected. -/
def sampleParseConfig (src : String) : Option (String → Option String) :=
  match afterLeading "tempKey = ".data src.data with
  | some e =>
    if e = [] then none else some (fun n => if n = "tempKey" then some (String.mk e) else none)
  | none => none

/-- Modelled from the spec: a concrete set of collaborators in which a token sequence is
represented by its source text. Rendering "renders a previously extracted value back into
valid expression text" (the text itself, the empty text for a missing entry). The resource
type of a block is its first label. -/
def sampleEnv : Env String where
  MoveExistingTags := sampleMoveExistingTags
  GetExistingTagsExpression := fun t _ => t.getD ""
  GetTerratagAddedKey := fun f => "terratag_added_" ++ GetFilenameSnake f
  GetResourceExistingTagsKey := sampleExistingTagsKey
  GetResourceType := fun b => b.labels.headD ""
  ParseConfig := sampleParseConfig
  tagAutoscalingGroup := sampleCustomFn
  tagContainerCluster := sampleCustomFn
  tagAksK8sCluster := sampleCustomFn

/-- The block `resource "aws_instance" "web"` whose only attribute, if any, is `tags`. -/
def sampleBlock (tags : Option String) : Block String :=
  ⟨"resource", ["aws_instance", "web"], fun n => if n = "tags" then tags else none, []⟩

/-- Arguments for file `main.tf`, the block above, an empty prior-tags index and the
attribute name `tags`. -/
def sampleArgs (tags : Option String) (version : Version) : TagBlockArgs String :=
  ⟨"main.tf", sampleBlock tags, "", ⟨fun _ => none, ""⟩, "tags", version⟩

/-- Modelled from the spec: a relocation step that fails ("RelocationFailure - propagated
verbatim from the external collaborator"). It leaves the block and the index alone and
returns an error. All other collaborators are those of `sampleEnv`. -/
def failingEnv : Env String where
  MoveExistingTags := fun _ terratag block _ =>
    ⟨false, some ⟨"failed to remove found tags block"⟩, block, terratag⟩
  GetExistingTagsExpression := sampleEnv.GetExistingTagsExpression
  GetTerratagAddedKey := sampleEnv.GetTerratagAddedKey
  GetResourceExistingTagsKey := sampleEnv.GetResourceExistingTagsKey
  GetResourceType := sampleEnv.GetResourceType
  ParseConfig := sampleParseConfig
  tagAutoscalingGroup := sampleCustomFn
  tagContainerCluster := sampleCustomFn
  tagAksK8sCluster := sampleCustomFn

/-- A caller runs `TagBlock` and then `RemoveTerratagTags` with the same argument struct:
the second call sees the block and the prior-tags index as the first call left them. -/
def tagThenRemove {Tok : Type} (env : Env Tok) (args : TagBlockArgs Tok) :
    Exec Tok (Option Result × Option GoError) :=
  RemoveTerratagTags env
    ⟨args.Filename, (TagBlock env args).Block, args.Tags, (TagBlock env args).Terratag,
      args.TagId, args.TfVersion⟩

/-- A caller runs `TagBlock` twice with the same argument struct: the second call sees the
block and the prior-tags index as the first call left them. -/
def tagTwice {Tok : Type} (env : Env Tok) (args : TagBlockArgs Tok) :
    Exec Tok (String × Option GoError) :=
  TagBlock env
    ⟨args.Filename, (TagBlock env args).Block, args.Tags, (TagBlock env args).Terratag,
      args.TagId, args.TfVersion⟩

/-- Whether the brackets of a text are balanced and no comma stands outside all brackets;
`stack` holds the closing brackets still expected, innermost first. String literals are not
looked at. -/
def bracketsOK : List Char → List Char → Bool
  | [], stack => stack.isEmpty
  | c :: cs, stack =>
    if c = '(' then bracketsOK cs (')' :: stack)
    else if c = '[' then bracketsOK cs (']' :: stack)
    else if c = '\x7b' then bracketsOK cs ('\x7d' :: stack)
    else if c = ')' ∨ c = ']' ∨ c = '\x7d' then
      match stack with
      | [] => false
      | top :: rest => top = c && bracketsOK cs rest
    else if c = ',' ∧ stack = [] then false
    else bracketsOK cs stack

/-- A stand-in for the HCL parser that, unlike `sampleParseConfig`, rejects some sources: a
source `tempKey = e` parses only when `e` is non-empty, its brackets are balanced and no
comma stands outside all brackets. An HCL expression without string literals has both
properties, so what this stand-in rejects among such sources the HCL parser rejects too. -/
def strictParseConfig (src : String) : Option (String → Option String) :=
  match afterLeading "tempKey = ".data src.data with
  | some e =>
    if e = [] ∨ bracketsOK e [] = false then none
    else some (fun n => if n = "tempKey" then some (String.mk e) else none)
  | none => none

/-- The collaborators of `sampleEnv` with the parser stand-in `strictParseConfig`. -/
def strictEnv : Env String where
  MoveExistingTags := sampleMoveExistingTags
  GetExistingTagsExpression := sampleEnv.GetExistingTagsExpression
  GetTerratagAddedKey := sampleEnv.GetTerratagAddedKey
  GetResourceExistingTagsKey := sampleEnv.GetResourceExistingTagsKey
  GetResourceType := sampleEnv.GetResourceType
  ParseConfig := strictParseConfig
  tagAutoscalingGroup := sampleCustomFn
  tagContainerCluster := sampleCustomFn
  tagAksK8sCluster := sampleCustomFn

/-! ## Lemmas about the functions of `tagging.go` -/

/-- The two ways of writing the merged text agree. -/
theorem localRef_append (e k : String) :
    "merge( " ++ e ++ ", " ++ ("local." ++ k) ++ ")" = "merge( " ++ e ++ ", local." ++ k ++ ")" := by
  simp only [String.append_assoc]
  rfl

/-- The text `TagBlock` synthesizes once relocation has succeeded, as a function of what
relocation left behind. -/
theorem TagBlock_of_parse {Tok : Type} (env : Env Tok) (args : TagBlockArgs Tok)
    (moved : Moved Tok) (base text : String) (toks : Tok)
    (hmoved : env.MoveExistingTags args.Filename args.Terratag args.Block args.TagId = moved)
    (herr : moved.err = none)
    (hbase : base = (if moved.hasExistingTags then
        "merge( " ++ env.GetExistingTagsExpression
          (moved.Terratag.Found (env.GetResourceExistingTagsKey args.Filename moved.Block))
          args.TfVersion ++ ", local." ++ env.GetTerratagAddedKey args.Filename ++ ")"
      else "local." ++ env.GetTerratagAddedKey args.Filename))
    (htext : text = (if args.TfVersion.Major = 0 ∧ args.TfVersion.Minor = 11 then
        "\"$\x7b" ++ base ++ "\x7d\"" else base))
    (hparse : ParseHclValueStringToTokens env text = some toks) :
    TagBlock env args =
      ⟨some (text, none), moved.Block.SetAttributeRaw args.TagId toks, moved.Terratag⟩ := by
  subst hmoved
  subst hbase
  subst htext
  simp only [TagBlock, herr, localRef_append, hparse]

/-- When `TagBlock` returns a text without error, it is the synthesized text. -/
theorem TagBlock_ret_text {Tok : Type} (env : Env Tok) (args : TagBlockArgs Tok)
    (moved : Moved Tok) (base text r : String)
    (hmoved : env.MoveExistingTags args.Filename args.Terratag args.Block args.TagId = moved)
    (hbase : base = (if moved.hasExistingTags then
        "merge( " ++ env.GetExistingTagsExpression
          (moved.Terratag.Found (env.GetResourceExistingTagsKey args.Filename moved.Block))
          args.TfVersion ++ ", local." ++ env.GetTerratagAddedKey args.Filename ++ ")"
      else "local." ++ env.GetTerratagAddedKey args.Filename))
    (htext : text = (if args.TfVersion.Major = 0 ∧ args.TfVersion.Minor = 11 then
        "\"$\x7b" ++ base ++ "\x7d\"" else base))
    (hr : (TagBlock env args).ret = some (r, none)) : r = text := by
  subst hmoved
  subst hbase
  subst htext
  simp only [TagBlock, localRef_append] at hr
  split at hr
  · simp at hr
  · split at hr
    · simp at hr
    · simp only [Option.some.injEq, Prod.mk.injEq, and_true] at hr
      exact hr.symm

/-- When `TagBlock` returns a text without error, relocation did not fail and the text has
tokens. -/
theorem TagBlock_ret_inv {Tok : Type} (env : Env Tok) (args : TagBlockArgs Tok)
    (moved : Moved Tok) (r : String)
    (hmoved : env.MoveExistingTags args.Filename args.Terratag args.Block args.TagId = moved)
    (hr : (TagBlock env args).ret = some (r, none)) :
    moved.err = none ∧ ∃ toks : Tok, ParseHclValueStringToTokens env r = some toks := by
  have htx := TagBlock_ret_text env args moved _ _ r hmoved rfl rfl hr
  subst hmoved
  simp only [TagBlock, localRef_append] at hr
  split at hr
  · simp at hr
  · rename_i herr
    refine ⟨herr, ?_⟩
    split at hr
    · simp at hr
    · rename_i toks hp
      exact ⟨toks, by rw [htx]; exact hp⟩

/-- What `RemoveTerratagTags` does on its literal-found path. -/
theorem RemoveTerratagTags_of_literal {Tok : Type} (env : Env Tok) (args : TagBlockArgs Tok)
    (moved : Moved Tok) (s : String) (toks : Tok)
    (hmoved : env.MoveExistingTags args.Filename args.Terratag args.Block args.TagId = moved)
    (herr : moved.err = none)
    (hflag : moved.hasExistingTags = true)
    (hs : env.GetExistingTagsExpression
      (moved.Terratag.Found (env.GetResourceExistingTagsKey args.Filename moved.Block))
      args.TfVersion = s)
    (hmatch : MatchString s = true)
    (hparse : ParseHclValueStringToTokens env (FindString s) = some toks) :
    RemoveTerratagTags env args =
      ⟨some (some ⟨[FindString s]⟩, none), moved.Block.SetAttributeRaw args.TagId toks,
        moved.Terratag⟩ := by
  subst hmoved
  subst hs
  simp [RemoveTerratagTags, herr, hflag, hmatch, hparse]

/-! ## Lemmas about the pattern match, trimming and the concrete environment -/

/-- The one-character pattern `\}` at the end of the input. -/
theorem closeHere_nil : matchHere [RegexItem.lit '\x7d'] [] = none := rfl

/-- The one-character pattern `\}` at a character. -/
theorem closeHere_cons (x : Char) (xs : List Char) :
    matchHere [RegexItem.lit '\x7d'] (x :: xs) = if x = '\x7d' then some [x] else none := by
  simp [matchHere]

/-- After the opening brace, `.*` followed by a closing brace fails when no closing brace is
left. -/
theorem matchStar_close_none (b : List Char) (hb : '\x7d' ∉ b) :
    matchStar (matchHere [RegexItem.lit '\x7d']) b = none := by
  induction b with
  | nil => simp only [matchStar, closeHere_nil]
  | cons x xs ih =>
    have hx : x ≠ '\x7d' := fun h => hb (by simp [h])
    have hxs : '\x7d' ∉ xs := fun h => hb (by simp [h])
    simp only [matchStar, ih hxs, closeHere_cons, hx, if_false]

/-- After the opening brace, `.*` followed by a closing brace runs up to the last closing
brace of the input. -/
theorem matchStar_close_last (a b : List Char) (hb : '\x7d' ∉ b) :
    matchStar (matchHere [RegexItem.lit '\x7d']) (a ++ '\x7d' :: b) = some (a ++ ['\x7d']) := by
  induction a with
  | nil =>
    simp only [List.nil_append, matchStar, matchStar_close_none b hb, closeHere_cons, if_true]
  | cons x xs ih =>
    show matchStar (matchHere [RegexItem.lit '\x7d']) (x :: (xs ++ '\x7d' :: b)) = _
    simp only [matchStar, ih, List.cons_append]

/-- The pattern at an opening brace: the brace, then `.*` and the closing brace. -/
theorem matchHere_brace_open (xs : List Char) :
    matchHere bracePattern ('\x7b' :: xs) =
      (matchStar (matchHere [RegexItem.lit '\x7d']) xs).map (fun m => '\x7b' :: m) := by
  simp only [bracePattern, matchHere, if_true]

/-- The pattern does not match at a character other than the opening brace. -/
theorem matchHere_brace_other (x : Char) (xs : List Char) (hx : x ≠ '\x7b') :
    matchHere bracePattern (x :: xs) = none := by
  simp [bracePattern, matchHere, hx]

/-- The search skips a stretch without an opening brace. -/
theorem findFrom_skip (pre rest : List Char) (hpre : '\x7b' ∉ pre) :
    findFrom bracePattern (pre ++ '\x7b' :: rest) = findFrom bracePattern ('\x7b' :: rest) := by
  induction pre with
  | nil => rfl
  | cons x xs ih =>
    have hx : x ≠ '\x7b' := fun h => hpre (by simp [h])
    have hxs : '\x7b' ∉ xs := fun h => hpre (by simp [h])
    simp only [List.cons_append, findFrom, matchHere_brace_other x _ hx]
    exact ih hxs

/-- The match of `(?s)\{.*\}`: when the first opening brace is followed by a closing brace,
the match runs from the first opening brace to the last closing brace. -/
theorem findFrom_brace_span (pre mid post : List Char) (hpre : '\x7b' ∉ pre)
    (hpost : '\x7d' ∉ post) :
    findFrom bracePattern (pre ++ '\x7b' :: mid ++ '\x7d' :: post) =
      some ('\x7b' :: mid ++ ['\x7d']) := by
  have h := findFrom_skip pre (mid ++ '\x7d' :: post) hpre
  simp only [List.append_assoc, List.cons_append] at h ⊢
  rw [h]
  simp only [findFrom, matchHere_brace_open, matchStar_close_last mid post hpost, Option.map,
    List.cons_append]

/-- A list that holds `c` splits at the last `c`. -/
theorem split_at_last (c : Char) (l : List Char) (h : c ∈ l) :
    ∃ a b : List Char, l = a ++ c :: b ∧ c ∉ b := by
  obtain ⟨as, bs, hl, hn⟩ := List.eq_append_cons_of_mem (List.mem_reverse.mpr h)
  refine ⟨bs.reverse, as.reverse, ?_, by simpa using hn⟩
  have := congrArg List.reverse hl
  simpa using this

/-- After the opening brace, `.*` followed by a closing brace fails exactly when no closing
brace is left. -/
theorem matchStar_close_none_iff (xs : List Char) :
    matchStar (matchHere [RegexItem.lit '\x7d']) xs = none ↔ '\x7d' ∉ xs := by
  constructor
  · intro h hmem
    obtain ⟨a, b, hl, hb⟩ := split_at_last '\x7d' xs hmem
    rw [hl, matchStar_close_last a b hb] at h
    exact Option.noConfusion h
  · exact matchStar_close_none xs

/-- The pattern finds nothing exactly when no opening brace of the text is followed by a
closing brace. -/
theorem findFrom_brace_none_iff (l : List Char) :
    findFrom bracePattern l = none ↔
      ∀ pre rest : List Char, l = pre ++ '\x7b' :: rest → '\x7d' ∉ rest := by
  induction l with
  | nil =>
    constructor
    · intro _ pre rest h
      cases pre <;> simp at h
    · intro _
      rfl
  | cons x xs ih =>
    by_cases hx : x = '\x7b'
    · subst hx
      by_cases hc : '\x7d' ∈ xs
      · constructor
        · intro h
          obtain ⟨a, b, hl, hb⟩ := split_at_last '\x7d' xs hc
          rw [findFrom, matchHere_brace_open, hl, matchStar_close_last a b hb] at h
          simp at h
        · intro h
          exact absurd hc (h [] xs rfl)
      · have hnone := matchStar_close_none xs hc
        constructor
        · intro _ pre rest hl hmem
          cases pre with
          | nil =>
            simp only [List.nil_append, List.cons.injEq, true_and] at hl
            exact hc (hl ▸ hmem)
          | cons p ps =>
            simp only [List.cons_append, List.cons.injEq] at hl
            exact hc (by rw [hl.2]; simp [hmem])
        · intro h
          rw [findFrom, matchHere_brace_open, hnone]
          simp only [Option.map]
          exact ih.mpr (fun pre rest hl => h ('\x7b' :: pre) rest (by rw [hl]; rfl))
    · rw [findFrom, matchHere_brace_other x xs hx]
      simp only
      rw [ih]
      constructor
      · intro h pre rest hl
        cases pre with
        | nil =>
          simp only [List.nil_append, List.cons.injEq] at hl
          exact absurd hl.1 hx
        | cons p ps =>
          simp only [List.cons_append, List.cons.injEq] at hl
          exact h ps rest hl.2
      · intro h pre rest hl
        exact h (x :: pre) rest (by rw [hl]; rfl)

/-- What the pattern finds: the text from the first opening brace to the last closing
brace. -/
theorem findFrom_brace_some (l m : List Char) (h : findFrom bracePattern l = some m) :
    ∃ pre mid post : List Char, l = pre ++ '\x7b' :: mid ++ '\x7d' :: post ∧
      '\x7b' ∉ pre ∧ '\x7d' ∉ post ∧ m = '\x7b' :: mid ++ ['\x7d'] := by
  induction l with
  | nil => exact Option.noConfusion h
  | cons x xs ih =>
    by_cases hx : x = '\x7b'
    · subst hx
      by_cases hc : '\x7d' ∈ xs
      · obtain ⟨a, b, hl, hb⟩ := split_at_last '\x7d' xs hc
        rw [findFrom, matchHere_brace_open, hl, matchStar_close_last a b hb] at h
        simp only [Option.map, Option.some.injEq] at h
        exact ⟨[], a, b, by simp [hl], by simp, hb, h.symm⟩
      · have hnone : findFrom bracePattern xs = none :=
          (findFrom_brace_none_iff xs).mpr (fun pre rest hl hmem =>
            hc (by rw [hl]; simp [hmem]))
        rw [findFrom, matchHere_brace_open, matchStar_close_none xs hc] at h
        simp only [Option.map] at h
        rw [hnone] at h
        exact Option.noConfusion h
    · rw [findFrom, matchHere_brace_other x xs hx] at h
      obtain ⟨pre, mid, post, hl, hpre, hpost, hm⟩ := ih h
      refine ⟨x :: pre, mid, post, by simp [hl], ?_, hpost, hm⟩
      intro hmem
      rcases List.mem_cons.mp hmem with h1 | h1
      · exact hx h1.symm
      · exact hpre h1

/-- The match in a text written as `pre{mid}post`, where `pre` has no opening brace and
`post` no closing brace: the pattern matches and finds `{mid}`. -/
theorem FindString_span (pre mid post : String) (hpre : '\x7b' ∉ pre.data)
    (hpost : '\x7d' ∉ post.data) :
    MatchString (pre ++ ("\x7b" ++ mid ++ "\x7d") ++ post) = true ∧
      FindString (pre ++ ("\x7b" ++ mid ++ "\x7d") ++ post) = "\x7b" ++ mid ++ "\x7d" := by
  have hdata : (pre ++ ("\x7b" ++ mid ++ "\x7d") ++ post).data =
      pre.data ++ '\x7b' :: mid.data ++ '\x7d' :: post.data := by
    simp [String.data_append]
  have hfind := findFrom_brace_span pre.data mid.data post.data hpre hpost
  have hlit : ("\x7b" ++ mid ++ "\x7d") = String.mk ('\x7b' :: mid.data ++ ['\x7d']) := by
    apply String.ext
    simp [String.data_append]
  constructor
  · simp only [MatchString, hdata, hfind, Option.isSome_some]
  · rw [FindString, hdata, hfind, hlit]

/-- The pattern matches exactly when some opening brace of the text stands before some
closing brace. -/
theorem MatchString_iff_pair (s : String) :
    MatchString s = true ↔
      ∃ pre mid post : List Char, s.data = pre ++ '\x7b' :: (mid ++ '\x7d' :: post) := by
  constructor
  · intro h
    obtain ⟨m, hm⟩ := Option.isSome_iff_exists.mp h
    obtain ⟨pre, mid, post, hl, _, _, _⟩ := findFrom_brace_some s.data m hm
    exact ⟨pre, mid, post, by simpa using hl⟩
  · rintro ⟨pre, mid, post, hl⟩
    cases hf : findFrom bracePattern s.data with
    | none =>
      have := (findFrom_brace_none_iff s.data).mp hf pre (mid ++ '\x7d' :: post) hl
      exact absurd (by simp) this
    | some m => simp [MatchString, hf]

/-- When the pattern matches, the text found runs from the first opening brace of the text
to its last closing brace. -/
theorem FindString_of_match (s : String) (h : MatchString s = true) :
    ∃ pre mid post : String, s = pre ++ ("\x7b" ++ mid ++ "\x7d") ++ post ∧
      '\x7b' ∉ pre.data ∧ '\x7d' ∉ post.data ∧ FindString s = "\x7b" ++ mid ++ "\x7d" := by
  obtain ⟨m, hm⟩ := Option.isSome_iff_exists.mp h
  obtain ⟨pre, mid, post, hl, hpre, hpost, _⟩ := findFrom_brace_some s.data m hm
  have hs : s = String.mk pre ++ ("\x7b" ++ String.mk mid ++ "\x7d") ++ String.mk post := by
    apply String.ext
    simp [String.data_append, hl]
  refine ⟨String.mk pre, String.mk mid, String.mk post, hs, hpre, hpost, ?_⟩
  have := (FindString_span (String.mk pre) (String.mk mid) (String.mk post) hpre hpost).2
  rw [← hs] at this
  exact this

/-- Trimming leaves alone a text that neither starts nor ends with white space. -/
theorem TrimSpace_id (c d : Char) (mid : List Char) (hc : isSpace c = false)
    (hd : isSpace d = false) :
    TrimSpace (String.mk (c :: mid ++ [d])) = String.mk (c :: mid ++ [d]) := by
  simp [TrimSpace, List.dropWhile, hc, hd]

/-- A text that starts with `lead` continues with what follows it. -/
theorem afterLeading_append (lead xs : List Char) : afterLeading lead (lead ++ xs) = some xs := by
  induction lead with
  | nil => cases xs <;> rfl
  | cons c cs ih => simp [afterLeading, ih]

/-! ## Properties of the specification -/

/-- C1 (amended): under a version other than (0,11), when relocation reports prior tags, the
prior-tags entry of the block renders as `E` and the text `merge( E, local.<key>)` parses
into the tokens `toks`, `TagBlock` returns no error and exactly that text, and the block is
the relocated block with the tag attribute set to `toks`. -/
theorem TagBlock_merges_existing_tags {Tok : Type} (env : Env Tok) (args : TagBlockArgs Tok)
    (moved : Moved Tok) (E : String) (toks : Tok)
    (hver : ¬ (args.TfVersion.Major = 0 ∧ args.TfVersion.Minor = 11))
    (hmoved : env.MoveExistingTags args.Filename args.Terratag args.Block args.TagId = moved)
    (herr : moved.err = none)
    (hflag : moved.hasExistingTags = true)
    (hE : env.GetExistingTagsExpression
      (moved.Terratag.Found (env.GetResourceExistingTagsKey args.Filename moved.Block))
      args.TfVersion = E)
    (hparse : ParseHclValueStringToTokens env
      ("merge( " ++ E ++ ", local." ++ env.GetTerratagAddedKey args.Filename ++ ")") = some toks) :
    (TagBlock env args).ret =
        some ("merge( " ++ E ++ ", local." ++ env.GetTerratagAddedKey args.Filename ++ ")", none) ∧
      (TagBlock env args).Block.attrs args.TagId = some toks ∧
      (TagBlock env args).Block = moved.Block.SetAttributeRaw args.TagId toks := by
  simp only [TagBlock, hmoved, herr, hflag, hE, hver, if_true, if_false, localRef_append, hparse,
    Block.SetAttributeRaw]
  simp

/-- The theorem above at file `main.tf`, version (1,3) and the prior tags `var.tags`. -/
theorem TagBlock_merges_existing_tags_witness :
    (TagBlock sampleEnv (sampleArgs (some "var.tags") ⟨1, 3⟩)).ret =
        some ("merge( var.tags, local.terratag_added_main_tf)", none) ∧
      (TagBlock sampleEnv (sampleArgs (some "var.tags") ⟨1, 3⟩)).Block.attrs "tags" =
        some "merge( var.tags, local.terratag_added_main_tf)" ∧
      (TagBlock sampleEnv (sampleArgs (some "var.tags") ⟨1, 3⟩)).Block =
        (sampleEnv.MoveExistingTags "main.tf" ⟨fun _ => none, ""⟩ (sampleBlock (some "var.tags"))
          "tags").Block.SetAttributeRaw "tags"
          "merge( var.tags, local.terratag_added_main_tf)" :=
  TagBlock_merges_existing_tags sampleEnv (sampleArgs (some "var.tags") ⟨1, 3⟩)
    (sampleEnv.MoveExistingTags "main.tf" ⟨fun _ => none, ""⟩ (sampleBlock (some "var.tags")) "tags")
    "var.tags" "merge( var.tags, local.terratag_added_main_tf)"
    (by decide) rfl rfl rfl rfl rfl

/-- C1 (counterexample): file `a)b.tf`, version (1,3), a block whose tags are `var.tags`.
Relocation reports prior tags and the entry renders as `var.tags`, but the text
`merge( var.tags, local.terratag_added_a)b_tf)` does not parse: `TagBlock` panics, it
returns nothing and the tag attribute keeps its value. -/
theorem TagBlock_merge_can_panic :
    (strictEnv.MoveExistingTags "a)b.tf" ⟨fun _ => none, ""⟩ (sampleBlock (some "var.tags"))
        "tags").hasExistingTags = true ∧
      (strictEnv.MoveExistingTags "a)b.tf" ⟨fun _ => none, ""⟩ (sampleBlock (some "var.tags"))
        "tags").err = none ∧
      strictEnv.GetExistingTagsExpression
        ((strictEnv.MoveExistingTags "a)b.tf" ⟨fun _ => none, ""⟩
          (sampleBlock (some "var.tags")) "tags").Terratag.Found
          (strictEnv.GetResourceExistingTagsKey "a)b.tf"
            (strictEnv.MoveExistingTags "a)b.tf" ⟨fun _ => none, ""⟩
              (sampleBlock (some "var.tags")) "tags").Block))
        ⟨1, 3⟩ = "var.tags" ∧
      strictEnv.GetTerratagAddedKey "a)b.tf" = "terratag_added_a)b_tf" ∧
      (TagBlock strictEnv
        ⟨"a)b.tf", sampleBlock (some "var.tags"), "", ⟨fun _ => none, ""⟩, "tags",
          ⟨1, 3⟩⟩).ret = none ∧
      (TagBlock strictEnv
        ⟨"a)b.tf", sampleBlock (some "var.tags"), "", ⟨fun _ => none, ""⟩, "tags",
          ⟨1, 3⟩⟩).ret ≠
        some ("merge( " ++ "var.tags" ++ ", local." ++ strictEnv.GetTerratagAddedKey "a)b.tf" ++
          ")", none) ∧
      (TagBlock strictEnv
        ⟨"a)b.tf", sampleBlock (some "var.tags"), "", ⟨fun _ => none, ""⟩, "tags",
          ⟨1, 3⟩⟩).Block.attrs "tags" = some "var.tags" := by
  decide

/-- C2 (amended): under a version other than (0,11), when relocation reports no prior tags
and the text `local.<key>` parses into the tokens `toks`, `TagBlock` returns no error and
exactly that text, and the block is the relocated block with the tag attribute set to `toks`;
any other call for the same filename that also finds no prior tags returns the same text and
writes the same tokens, whatever its block. -/
theorem TagBlock_local_reference {Tok : Type} (env : Env Tok) (args args2 : TagBlockArgs Tok)
    (moved moved2 : Moved Tok) (toks : Tok)
    (hver : ¬ (args.TfVersion.Major = 0 ∧ args.TfVersion.Minor = 11))
    (hmoved : env.MoveExistingTags args.Filename args.Terratag args.Block args.TagId = moved)
    (herr : moved.err = none)
    (hflag : moved.hasExistingTags = false)
    (hparse : ParseHclValueStringToTokens env
      ("local." ++ env.GetTerratagAddedKey args.Filename) = some toks)
    (hfile : args2.Filename = args.Filename)
    (hver2 : ¬ (args2.TfVersion.Major = 0 ∧ args2.TfVersion.Minor = 11))
    (hmoved2 :
      env.MoveExistingTags args2.Filename args2.Terratag args2.Block args2.TagId = moved2)
    (herr2 : moved2.err = none)
    (hflag2 : moved2.hasExistingTags = false) :
    (TagBlock env args).ret = some ("local." ++ env.GetTerratagAddedKey args.Filename, none) ∧
      (TagBlock env args).Block.attrs args.TagId = some toks ∧
      (TagBlock env args).Block = moved.Block.SetAttributeRaw args.TagId toks ∧
      (TagBlock env args2).ret = (TagBlock env args).ret ∧
      (TagBlock env args2).Block.attrs args2.TagId = some toks := by
  have h1 := TagBlock_of_parse env args moved _ _ toks hmoved herr rfl rfl
    (by simpa [hflag, hver] using hparse)
  have h2 := TagBlock_of_parse env args2 moved2 _ _ toks hmoved2 herr2 rfl rfl
    (by simpa [hflag2, hver2, hfile] using hparse)
  rw [h1, h2]
  simp [hflag, hflag2, hver, hver2, hfile, Block.SetAttributeRaw]

/-- The theorem above at file `main.tf` and version (1,3): the text is
`local.terratag_added_main_tf`, also for another block, attribute name and version. -/
theorem TagBlock_local_reference_witness :
    (TagBlock sampleEnv (sampleArgs none ⟨1, 3⟩)).ret =
        some ("local.terratag_added_main_tf", none) ∧
      (TagBlock sampleEnv (sampleArgs none ⟨1, 3⟩)).Block.attrs "tags" =
        some "local.terratag_added_main_tf" ∧
      (TagBlock sampleEnv (sampleArgs none ⟨1, 3⟩)).Block =
        (sampleBlock none).SetAttributeRaw "tags" "local.terratag_added_main_tf" ∧
      (TagBlock sampleEnv
          ⟨"main.tf", ⟨"resource", ["aws_s3_bucket", "logs"], fun _ => none, []⟩, "",
            ⟨fun _ => none, ""⟩, "labels", ⟨0, 12⟩⟩).ret =
        (TagBlock sampleEnv (sampleArgs none ⟨1, 3⟩)).ret ∧
      (TagBlock sampleEnv
          ⟨"main.tf", ⟨"resource", ["aws_s3_bucket", "logs"], fun _ => none, []⟩, "",
            ⟨fun _ => none, ""⟩, "labels", ⟨0, 12⟩⟩).Block.attrs "labels" =
        some "local.terratag_added_main_tf" :=
  TagBlock_local_reference sampleEnv (sampleArgs none ⟨1, 3⟩)
    ⟨"main.tf", ⟨"resource", ["aws_s3_bucket", "logs"], fun _ => none, []⟩, "",
      ⟨fun _ => none, ""⟩, "labels", ⟨0, 12⟩⟩
    ⟨false, none, sampleBlock none, ⟨fun _ => none, ""⟩⟩
    ⟨false, none, ⟨"resource", ["aws_s3_bucket", "logs"], fun _ => none, []⟩, ⟨fun _ => none, ""⟩⟩
    "local.terratag_added_main_tf"
    (by decide) rfl rfl rfl rfl rfl (by decide) rfl rfl rfl

/-- C2 (counterexample): file `a)b.tf`, version (1,3), a block without tags. Relocation
reports no prior tags, but the text `local.terratag_added_a)b_tf` does not parse: `TagBlock`
panics, it returns nothing and the block gets no tag attribute. -/
theorem TagBlock_local_reference_can_panic :
    (strictEnv.MoveExistingTags "a)b.tf" ⟨fun _ => none, ""⟩ (sampleBlock none)
        "tags").hasExistingTags = false ∧
      (strictEnv.MoveExistingTags "a)b.tf" ⟨fun _ => none, ""⟩ (sampleBlock none)
        "tags").err = none ∧
      strictEnv.GetTerratagAddedKey "a)b.tf" = "terratag_added_a)b_tf" ∧
      (TagBlock strictEnv
        ⟨"a)b.tf", sampleBlock none, "", ⟨fun _ => none, ""⟩, "tags", ⟨1, 3⟩⟩).ret = none ∧
      (TagBlock strictEnv
        ⟨"a)b.tf", sampleBlock none, "", ⟨fun _ => none, ""⟩, "tags", ⟨1, 3⟩⟩).ret ≠
        some ("local." ++ strictEnv.GetTerratagAddedKey "a)b.tf", none) ∧
      (TagBlock strictEnv
        ⟨"a)b.tf", sampleBlock none, "", ⟨fun _ => none, ""⟩, "tags",
          ⟨1, 3⟩⟩).Block.attrs "tags" = none := by
  decide

/-- C4 (amended): with collaborators as the claim models them (relocation records the
current value of the tag attribute in the prior-tags index and reports `true`; rendering
returns the text of the recorded tokens), under a version other than (0,11) and a derived
key without a closing brace, take a block whose tag attribute is itself a brace-delimited
literal `{mid}`, and let that literal and the merged text parse into tokens `t2` and `t1`
that have the text they were parsed from. Then `TagBlock` followed by `RemoveTerratagTags`
returns the one-element list holding that literal and leaves the tag attribute holding `t2`,
whose text is exactly that literal. -/
theorem tagThenRemove_restores_literal {Tok : Type} (env : Env Tok) (text : Tok → String)
    (args : TagBlockArgs Tok) (tV t1 t2 : Tok) (mid : String)
    (hver : ¬ (args.TfVersion.Major = 0 ∧ args.TfVersion.Minor = 11))
    (hrec : ∀ (terratag : TerratagLocal Tok) (block : Block Tok) (v : Tok),
      block.attrs args.TagId = some v →
      env.MoveExistingTags args.Filename terratag block args.TagId =
        ⟨true, none, block,
          ⟨fun k => if k = env.GetResourceExistingTagsKey args.Filename block then some v
            else terratag.Found k, terratag.Added⟩⟩)
    (hrender : ∀ t : Tok, env.GetExistingTagsExpression (some t) args.TfVersion = text t)
    (hattr : args.Block.attrs args.TagId = some tV)
    (hV : text tV = "\x7b" ++ mid ++ "\x7d")
    (hkey : '\x7d' ∉ (env.GetTerratagAddedKey args.Filename).data)
    (hp1 : ParseHclValueStringToTokens env
      ("merge( " ++ text tV ++ ", local." ++ env.GetTerratagAddedKey args.Filename ++ ")") =
      some t1)
    (ht1 : text t1 =
      "merge( " ++ text tV ++ ", local." ++ env.GetTerratagAddedKey args.Filename ++ ")")
    (hp2 : ParseHclValueStringToTokens env (text tV) = some t2)
    (ht2 : text t2 = text tV) :
    (tagThenRemove env args).ret = some (some ⟨[text tV]⟩, none) ∧
      (tagThenRemove env args).Block.attrs args.TagId = some t2 ∧
      ((tagThenRemove env args).Block.attrs args.TagId).map text = some (text tV) := by
  -- the first call
  have hm1 := hrec args.Terratag args.Block tV hattr
  have h1 := TagBlock_of_parse env args _
    ("merge( " ++ text tV ++ ", local." ++ env.GetTerratagAddedKey args.Filename ++ ")")
    ("merge( " ++ text tV ++ ", local." ++ env.GetTerratagAddedKey args.Filename ++ ")")
    t1 hm1 rfl (by simp [hrender]) (by simp [hver]) hp1
  -- the match in the text written by the first call
  have hspan := FindString_span "merge( " mid
    (", local." ++ env.GetTerratagAddedKey args.Filename ++ ")") (by decide)
    (by
      simp only [String.data_append, List.mem_append, not_or]
      exact ⟨⟨by decide, hkey⟩, by decide⟩)
  have hshape : "merge( " ++ ("\x7b" ++ mid ++ "\x7d") ++
      (", local." ++ env.GetTerratagAddedKey args.Filename ++ ")") =
      "merge( " ++ text tV ++ ", local." ++ env.GetTerratagAddedKey args.Filename ++ ")" := by
    rw [hV]
    simp only [String.append_assoc]
  rw [hshape, ← hV] at hspan
  -- the second call
  have hm2 := hrec ⟨fun k => if k = env.GetResourceExistingTagsKey args.Filename args.Block
      then some tV else args.Terratag.Found k, args.Terratag.Added⟩
    (args.Block.SetAttributeRaw args.TagId t1) t1 (by simp [Block.SetAttributeRaw])
  have h2 := RemoveTerratagTags_of_literal env
    ⟨args.Filename, args.Block.SetAttributeRaw args.TagId t1, args.Tags,
      ⟨fun k => if k = env.GetResourceExistingTagsKey args.Filename args.Block
        then some tV else args.Terratag.Found k, args.Terratag.Added⟩,
      args.TagId, args.TfVersion⟩ _
    ("merge( " ++ text tV ++ ", local." ++ env.GetTerratagAddedKey args.Filename ++ ")")
    t2 hm2 rfl rfl (by simp [hrender, ht1]) hspan.1 (by rw [hspan.2]; exact hp2)
  rw [hspan.2] at h2
  simp only [tagThenRemove, h1, h2]
  simp [Block.SetAttributeRaw, ht2]

/-- The theorem above at a block whose tags are the literal `{"env":"prod"}`. -/
theorem tagThenRemove_restores_literal_witness :
    (tagThenRemove sampleEnv (sampleArgs (some "\x7b\"env\":\"prod\"\x7d") ⟨1, 3⟩)).ret =
        some (some ⟨["\x7b\"env\":\"prod\"\x7d"]⟩, none) ∧
      (tagThenRemove sampleEnv
        (sampleArgs (some "\x7b\"env\":\"prod\"\x7d") ⟨1, 3⟩)).Block.attrs "tags" =
        some "\x7b\"env\":\"prod\"\x7d" ∧
      ((tagThenRemove sampleEnv
        (sampleArgs (some "\x7b\"env\":\"prod\"\x7d") ⟨1, 3⟩)).Block.attrs "tags").map id =
        some "\x7b\"env\":\"prod\"\x7d" :=
  tagThenRemove_restores_literal sampleEnv id
    (sampleArgs (some "\x7b\"env\":\"prod\"\x7d") ⟨1, 3⟩)
    "\x7b\"env\":\"prod\"\x7d"
    "merge( \x7b\"env\":\"prod\"\x7d, local.terratag_added_main_tf)"
    "\x7b\"env\":\"prod\"\x7d" "\"env\":\"prod\""
    (by decide)
    (by
      intro terratag block v h
      have h2 : block.attrs "tags" = some v := h
      simp [sampleArgs, sampleEnv, sampleMoveExistingTags, h2])
    (fun _ => rfl)
    rfl rfl (by decide) rfl rfl rfl rfl

/-- C4 (counterexample): the tag attribute holds `merge( {a = 1}, var.extra)`, which contains
an inline object literal. After `TagBlock` and `RemoveTerratagTags` the attribute holds only
`{a = 1}` and the result is `[{a = 1}]`: the wrapping `merge(` and `var.extra` are lost.
Under version (0,11) the text written by `TagBlock` for the attribute value `{a = 1}` starts
its match at the brace of the interpolation, so the literal found is not `{a = 1}` either. -/
theorem tagThenRemove_not_identity :
    (sampleArgs (some "merge( \x7ba = 1\x7d, var.extra)") ⟨1, 3⟩).Block.attrs "tags" =
        some "merge( \x7ba = 1\x7d, var.extra)" ∧
      MatchString "merge( \x7ba = 1\x7d, var.extra)" = true ∧
      (tagThenRemove sampleEnv (sampleArgs (some "merge( \x7ba = 1\x7d, var.extra)") ⟨1, 3⟩)).ret =
        some (some ⟨["\x7ba = 1\x7d"]⟩, none) ∧
      (tagThenRemove sampleEnv
        (sampleArgs (some "merge( \x7ba = 1\x7d, var.extra)") ⟨1, 3⟩)).Block.attrs "tags" =
        some "\x7ba = 1\x7d" ∧
      ¬ ((tagThenRemove sampleEnv
          (sampleArgs (some "merge( \x7ba = 1\x7d, var.extra)") ⟨1, 3⟩)).Block.attrs "tags" =
          some "merge( \x7ba = 1\x7d, var.extra)" ∧
        (tagThenRemove sampleEnv
          (sampleArgs (some "merge( \x7ba = 1\x7d, var.extra)") ⟨1, 3⟩)).ret =
          some (some ⟨["merge( \x7ba = 1\x7d, var.extra)"]⟩, none)) ∧
      (TagBlock sampleEnv (sampleArgs (some "\x7ba = 1\x7d") ⟨0, 11⟩)).ret =
        some ("\"$\x7bmerge( \x7ba = 1\x7d, local.terratag_added_main_tf)\x7d\"", none) ∧
      FindString "\"$\x7bmerge( \x7ba = 1\x7d, local.terratag_added_main_tf)\x7d\"" =
        "\x7bmerge( \x7ba = 1\x7d, local.terratag_added_main_tf)\x7d" := by
  decide

/-- C5 (amended): when relocation reports prior tags, the prior-tags entry renders as `s`,
the pattern matches `s` and finds the literal `L`, and `L` parses into the tokens `toks`,
`RemoveTerratagTags` returns no error and the result `[L]`, and the block is the relocated
block with the tag attribute set to exactly `toks`: nothing is written around `L`. -/
theorem RemoveTerratagTags_restores_literal {Tok : Type} (env : Env Tok)
    (args : TagBlockArgs Tok) (moved : Moved Tok) (s L : String) (toks : Tok)
    (hmoved : env.MoveExistingTags args.Filename args.Terratag args.Block args.TagId = moved)
    (herr : moved.err = none)
    (hflag : moved.hasExistingTags = true)
    (hs : env.GetExistingTagsExpression
      (moved.Terratag.Found (env.GetResourceExistingTagsKey args.Filename moved.Block))
      args.TfVersion = s)
    (hmatch : MatchString s = true)
    (hL : FindString s = L)
    (hparse : ParseHclValueStringToTokens env L = some toks) :
    (RemoveTerratagTags env args).ret = some (some ⟨[L]⟩, none) ∧
      (RemoveTerratagTags env args).Block.attrs args.TagId = some toks ∧
      (RemoveTerratagTags env args).Block = moved.Block.SetAttributeRaw args.TagId toks := by
  subst hmoved
  subst hs
  subst hL
  simp [RemoveTerratagTags, herr, hflag, hmatch, hparse, Block.SetAttributeRaw]

/-- The theorem above at a block tagged as `merge( {"env":"prod"}, local.terratag_added_main_tf)`. -/
theorem RemoveTerratagTags_restores_literal_witness :
    (RemoveTerratagTags sampleEnv
        (sampleArgs (some "merge( \x7b\"env\":\"prod\"\x7d, local.terratag_added_main_tf)")
          ⟨1, 3⟩)).ret = some (some ⟨["\x7b\"env\":\"prod\"\x7d"]⟩, none) ∧
      (RemoveTerratagTags sampleEnv
        (sampleArgs (some "merge( \x7b\"env\":\"prod\"\x7d, local.terratag_added_main_tf)")
          ⟨1, 3⟩)).Block.attrs "tags" = some "\x7b\"env\":\"prod\"\x7d" ∧
      (RemoveTerratagTags sampleEnv
        (sampleArgs (some "merge( \x7b\"env\":\"prod\"\x7d, local.terratag_added_main_tf)")
          ⟨1, 3⟩)).Block =
        (sampleBlock
          (some "merge( \x7b\"env\":\"prod\"\x7d, local.terratag_added_main_tf)")).SetAttributeRaw
          "tags" "\x7b\"env\":\"prod\"\x7d" :=
  RemoveTerratagTags_restores_literal sampleEnv
    (sampleArgs (some "merge( \x7b\"env\":\"prod\"\x7d, local.terratag_added_main_tf)") ⟨1, 3⟩)
    (sampleEnv.MoveExistingTags "main.tf" ⟨fun _ => none, ""⟩
      (sampleBlock (some "merge( \x7b\"env\":\"prod\"\x7d, local.terratag_added_main_tf)"))
      "tags")
    "merge( \x7b\"env\":\"prod\"\x7d, local.terratag_added_main_tf)"
    "\x7b\"env\":\"prod\"\x7d" "\x7b\"env\":\"prod\"\x7d"
    rfl rfl rfl rfl (by decide) (by decide) rfl

/-- C5 (counterexample): a block whose tags are `merge( {a = 1}, {b = 2})`. Relocation
reports prior tags and the pattern finds the literal `{a = 1}, {b = 2}`, which does not
parse: `RemoveTerratagTags` panics, it returns nothing and the tag attribute keeps its
value. -/
theorem RemoveTerratagTags_literal_can_panic :
    (strictEnv.MoveExistingTags "main.tf" ⟨fun _ => none, ""⟩
        (sampleBlock (some "merge( \x7ba = 1\x7d, \x7bb = 2\x7d)")) "tags").hasExistingTags =
        true ∧
      (strictEnv.MoveExistingTags "main.tf" ⟨fun _ => none, ""⟩
        (sampleBlock (some "merge( \x7ba = 1\x7d, \x7bb = 2\x7d)")) "tags").err = none ∧
      strictEnv.GetExistingTagsExpression
        ((strictEnv.MoveExistingTags "main.tf" ⟨fun _ => none, ""⟩
          (sampleBlock (some "merge( \x7ba = 1\x7d, \x7bb = 2\x7d)")) "tags").Terratag.Found
          (strictEnv.GetResourceExistingTagsKey "main.tf"
            (strictEnv.MoveExistingTags "main.tf" ⟨fun _ => none, ""⟩
              (sampleBlock (some "merge( \x7ba = 1\x7d, \x7bb = 2\x7d)")) "tags").Block))
        ⟨1, 3⟩ = "merge( \x7ba = 1\x7d, \x7bb = 2\x7d)" ∧
      MatchString "merge( \x7ba = 1\x7d, \x7bb = 2\x7d)" = true ∧
      FindString "merge( \x7ba = 1\x7d, \x7bb = 2\x7d)" = "\x7ba = 1\x7d, \x7bb = 2\x7d" ∧
      (RemoveTerratagTags strictEnv
        (sampleArgs (some "merge( \x7ba = 1\x7d, \x7bb = 2\x7d)") ⟨1, 3⟩)).ret = none ∧
      (RemoveTerratagTags strictEnv
        (sampleArgs (some "merge( \x7ba = 1\x7d, \x7bb = 2\x7d)") ⟨1, 3⟩)).ret ≠
        some (some ⟨["\x7ba = 1\x7d, \x7bb = 2\x7d"]⟩, none) ∧
      (RemoveTerratagTags strictEnv
        (sampleArgs (some "merge( \x7ba = 1\x7d, \x7bb = 2\x7d)") ⟨1, 3⟩)).Block.attrs "tags" =
        some "merge( \x7ba = 1\x7d, \x7bb = 2\x7d)" := by
  decide

/-- C6: when relocation reports prior tags and the pattern does not match the rendered
prior-tags entry, `RemoveTerratagTags` returns no error and the one-element result holding
the existing-tags lookup key of the block, and the block is the relocated block with the tag
attribute removed: it has no attribute named `TagId`. -/
theorem RemoveTerratagTags_removes_attribute {Tok : Type} (env : Env Tok)
    (args : TagBlockArgs Tok) (moved : Moved Tok) (s : String)
    (hmoved : env.MoveExistingTags args.Filename args.Terratag args.Block args.TagId = moved)
    (herr : moved.err = none)
    (hflag : moved.hasExistingTags = true)
    (hs : env.GetExistingTagsExpression
      (moved.Terratag.Found (env.GetResourceExistingTagsKey args.Filename moved.Block))
      args.TfVersion = s)
    (hmatch : MatchString s = false) :
    (RemoveTerratagTags env args).ret =
        some (some ⟨[env.GetResourceExistingTagsKey args.Filename moved.Block]⟩, none) ∧
      (RemoveTerratagTags env args).Block.attrs args.TagId = none ∧
      (RemoveTerratagTags env args).Block = moved.Block.RemoveAttribute args.TagId := by
  subst hmoved
  subst hs
  simp [RemoveTerratagTags, herr, hflag, hmatch, Block.RemoveAttribute]

/-- The theorem above at a block whose tags are the bare reference `var.tags`. -/
theorem RemoveTerratagTags_removes_attribute_witness :
    (RemoveTerratagTags sampleEnv (sampleArgs (some "var.tags") ⟨1, 3⟩)).ret =
        some (some ⟨["terratag_found_main_tf__aws_instance__web"]⟩, none) ∧
      (RemoveTerratagTags sampleEnv (sampleArgs (some "var.tags") ⟨1, 3⟩)).Block.attrs "tags" =
        none ∧
      (RemoveTerratagTags sampleEnv (sampleArgs (some "var.tags") ⟨1, 3⟩)).Block =
        (sampleBlock (some "var.tags")).RemoveAttribute "tags" :=
  RemoveTerratagTags_removes_attribute sampleEnv (sampleArgs (some "var.tags") ⟨1, 3⟩)
    (sampleEnv.MoveExistingTags "main.tf" ⟨fun _ => none, ""⟩ (sampleBlock (some "var.tags"))
      "tags")
    "var.tags" rfl rfl rfl rfl (by decide)

/-- C7: when relocation succeeds and reports no prior tags, `RemoveTerratagTags` returns no
error and a result with an empty sequence, and the block and the prior-tags index are as
relocation left them. -/
theorem RemoveTerratagTags_nothing_to_remove {Tok : Type} (env : Env Tok)
    (args : TagBlockArgs Tok) (moved : Moved Tok)
    (hmoved : env.MoveExistingTags args.Filename args.Terratag args.Block args.TagId = moved)
    (herr : moved.err = none)
    (hflag : moved.hasExistingTags = false) :
    (RemoveTerratagTags env args).ret = some (some ⟨[]⟩, none) ∧
      (RemoveTerratagTags env args).Block = moved.Block ∧
      (RemoveTerratagTags env args).Terratag = moved.Terratag := by
  subst hmoved
  simp [RemoveTerratagTags, herr, hflag]

/-- The theorem above at a block without a tag attribute. -/
theorem RemoveTerratagTags_nothing_to_remove_witness :
    (RemoveTerratagTags sampleEnv (sampleArgs none ⟨1, 3⟩)).ret = some (some ⟨[]⟩, none) ∧
      (RemoveTerratagTags sampleEnv (sampleArgs none ⟨1, 3⟩)).Block = sampleBlock none ∧
      (RemoveTerratagTags sampleEnv (sampleArgs none ⟨1, 3⟩)).Terratag =
        ⟨fun _ => none, ""⟩ :=
  RemoveTerratagTags_nothing_to_remove sampleEnv (sampleArgs none ⟨1, 3⟩)
    ⟨false, none, sampleBlock none, ⟨fun _ => none, ""⟩⟩ rfl rfl rfl

/-- C8 (amended): `TagBlock` is not idempotent. Let a first call return the text `r` and
write tokens `t1` whose text is `r`, let relocation record the current value of the tag
attribute in the prior-tags index and report `true`, and let rendering return the text of
the recorded tokens. Then a second call on the block, whatever the state of the index, does
not repeat `r`: it synthesizes `merge( r, local.<key>)` (quoted and interpolated under
version (0,11)), a text different from `r`; when that text parses into tokens `t2` with that
text, the second call returns it and leaves the tag attribute holding `t2`, not `t1`. -/
theorem tagTwice_wraps_first {Tok : Type} (env : Env Tok) (text : Tok → String)
    (args : TagBlockArgs Tok) (r text2 : String) (t1 t2 : Tok)
    (hr : (TagBlock env args).ret = some (r, none))
    (hattr : (TagBlock env args).Block.attrs args.TagId = some t1)
    (ht1 : text t1 = r)
    (hrec : ∀ (terratag : TerratagLocal Tok) (block : Block Tok) (v : Tok),
      block.attrs args.TagId = some v →
      env.MoveExistingTags args.Filename terratag block args.TagId =
        ⟨true, none, block,
          ⟨fun k => if k = env.GetResourceExistingTagsKey args.Filename block then some v
            else terratag.Found k, terratag.Added⟩⟩)
    (hrender : ∀ t : Tok, env.GetExistingTagsExpression (some t) args.TfVersion = text t)
    (htext2 : text2 = (if args.TfVersion.Major = 0 ∧ args.TfVersion.Minor = 11 then
        "\"$\x7b" ++ ("merge( " ++ r ++ ", local." ++ env.GetTerratagAddedKey args.Filename ++
          ")") ++ "\x7d\""
      else "merge( " ++ r ++ ", local." ++ env.GetTerratagAddedKey args.Filename ++ ")"))
    (hp2 : ParseHclValueStringToTokens env text2 = some t2)
    (ht2 : text t2 = text2) :
    text2 ≠ r ∧
      (tagTwice env args).ret = some (text2, none) ∧
      (tagTwice env args).ret ≠ (TagBlock env args).ret ∧
      (tagTwice env args).Block.attrs args.TagId = some t2 ∧
      (tagTwice env args).Block.attrs args.TagId ≠ (TagBlock env args).Block.attrs args.TagId ∧
      (∀ terratag : TerratagLocal Tok,
        (TagBlock env ⟨args.Filename, (TagBlock env args).Block, args.Tags, terratag,
          args.TagId, args.TfVersion⟩).ret = some (text2, none) ∧
        (TagBlock env ⟨args.Filename, (TagBlock env args).Block, args.Tags, terratag,
          args.TagId, args.TfVersion⟩).Block.attrs args.TagId = some t2) := by
  have hne : text2 ≠ r := by
    intro h
    have hl := congrArg String.length h
    have hlen : "merge( ".length = 7 := by decide
    rw [htext2] at hl
    split at hl
    · simp only [String.length_append] at hl
      omega
    · simp only [String.length_append] at hl
      omega
  have hsecond : ∀ terratag : TerratagLocal Tok,
      TagBlock env ⟨args.Filename, (TagBlock env args).Block, args.Tags, terratag,
        args.TagId, args.TfVersion⟩ =
      ⟨some (text2, none), (TagBlock env args).Block.SetAttributeRaw args.TagId t2,
        ⟨fun k => if k = env.GetResourceExistingTagsKey args.Filename (TagBlock env args).Block
          then some t1 else terratag.Found k, terratag.Added⟩⟩ := by
    intro terratag
    have hm2 := hrec terratag (TagBlock env args).Block t1 hattr
    exact TagBlock_of_parse env
      ⟨args.Filename, (TagBlock env args).Block, args.Tags, terratag, args.TagId,
        args.TfVersion⟩ _
      ("merge( " ++ r ++ ", local." ++ env.GetTerratagAddedKey args.Filename ++ ")")
      text2 t2 hm2 rfl (by simp [hrender, ht1]) htext2 hp2
  have htt : (tagTwice env args).Block.attrs args.TagId = some t2 := by
    simp [tagTwice, hsecond, Block.SetAttributeRaw]
  have hret : (tagTwice env args).ret = some (text2, none) := by simp [tagTwice, hsecond]
  refine ⟨hne, hret, ?_, htt, ?_, ?_⟩
  · rw [hret, hr]
    intro h
    exact hne (congrArg Prod.fst (Option.some.inj h))
  · rw [htt, hattr]
    intro h
    have h' : t2 = t1 := Option.some.inj h
    exact hne (by rw [← ht2, h', ht1])
  · intro terratag
    simp [hsecond, Block.SetAttributeRaw]

/-- The theorem above at a block without tags: the first call writes
`local.terratag_added_main_tf`, the second wraps it. -/
theorem tagTwice_wraps_first_witness :
    "merge( local.terratag_added_main_tf, local.terratag_added_main_tf)" ≠
        "local.terratag_added_main_tf" ∧
      (tagTwice sampleEnv (sampleArgs none ⟨1, 3⟩)).ret =
        some ("merge( local.terratag_added_main_tf, local.terratag_added_main_tf)", none) ∧
      (tagTwice sampleEnv (sampleArgs none ⟨1, 3⟩)).ret ≠
        (TagBlock sampleEnv (sampleArgs none ⟨1, 3⟩)).ret ∧
      (tagTwice sampleEnv (sampleArgs none ⟨1, 3⟩)).Block.attrs "tags" =
        some "merge( local.terratag_added_main_tf, local.terratag_added_main_tf)" ∧
      (tagTwice sampleEnv (sampleArgs none ⟨1, 3⟩)).Block.attrs "tags" ≠
        (TagBlock sampleEnv (sampleArgs none ⟨1, 3⟩)).Block.attrs "tags" ∧
      (∀ terratag : TerratagLocal String,
        (TagBlock sampleEnv ⟨"main.tf", (TagBlock sampleEnv (sampleArgs none ⟨1, 3⟩)).Block, "",
          terratag, "tags", ⟨1, 3⟩⟩).ret =
          some ("merge( local.terratag_added_main_tf, local.terratag_added_main_tf)", none) ∧
        (TagBlock sampleEnv ⟨"main.tf", (TagBlock sampleEnv (sampleArgs none ⟨1, 3⟩)).Block, "",
          terratag, "tags", ⟨1, 3⟩⟩).Block.attrs "tags" =
          some "merge( local.terratag_added_main_tf, local.terratag_added_main_tf)") :=
  tagTwice_wraps_first sampleEnv id (sampleArgs none ⟨1, 3⟩)
    "local.terratag_added_main_tf"
    "merge( local.terratag_added_main_tf, local.terratag_added_main_tf)"
    "local.terratag_added_main_tf"
    "merge( local.terratag_added_main_tf, local.terratag_added_main_tf)"
    rfl rfl rfl
    (by
      intro terratag block v h
      have h2 : block.attrs "tags" = some v := h
      simp [sampleArgs, sampleEnv, sampleMoveExistingTags, h2])
    (fun _ => rfl)
    rfl rfl rfl

/-- C8 (counterexample): for a block without tags and a relocation step that records the
current tag attribute, the first `TagBlock` writes `local.terratag_added_main_tf` and the
second writes `merge( local.terratag_added_main_tf, local.terratag_added_main_tf)`; the same
happens when the prior-tags index is put back to its initial (empty) state before the second
call. -/
theorem tagTwice_not_idempotent :
    (TagBlock sampleEnv (sampleArgs none ⟨1, 3⟩)).Block.attrs "tags" =
        some "local.terratag_added_main_tf" ∧
      (tagTwice sampleEnv (sampleArgs none ⟨1, 3⟩)).Block.attrs "tags" =
        some "merge( local.terratag_added_main_tf, local.terratag_added_main_tf)" ∧
      (tagTwice sampleEnv (sampleArgs none ⟨1, 3⟩)).Block.attrs "tags" ≠
        (TagBlock sampleEnv (sampleArgs none ⟨1, 3⟩)).Block.attrs "tags" ∧
      (TagBlock sampleEnv
          ⟨"main.tf", (TagBlock sampleEnv (sampleArgs none ⟨1, 3⟩)).Block, "",
            ⟨fun _ => none, ""⟩, "tags", ⟨1, 3⟩⟩).Block.attrs "tags" =
        some "merge( local.terratag_added_main_tf, local.terratag_added_main_tf)" := by
  decide

/-- C9: `HasResourceTagFn` is true exactly for the three registered resource types, and for
a block of any other resource type `TagResource` is the default strategy: it passes on the
error of `TagBlock` with a nil result, and otherwise returns the one-element result holding
the text `TagBlock` returned. -/
theorem TagResource_dispatch {Tok : Type} (env : Env Tok) :
    (∀ t : String, HasResourceTagFn env t = true ↔
        (t = "aws_autoscaling_group" ∨ t = "google_container_cluster" ∨
          t = "azurerm_kubernetes_cluster")) ∧
      (∀ args : TagBlockArgs Tok,
        env.GetResourceType args.Block ≠ "aws_autoscaling_group" →
        env.GetResourceType args.Block ≠ "google_container_cluster" →
        env.GetResourceType args.Block ≠ "azurerm_kubernetes_cluster" →
        TagResource env args = defaultTaggingFn env args ∧
          (∀ (s : String) (e : GoError), (TagBlock env args).ret = some (s, some e) →
            (TagResource env args).ret = some (none, some e)) ∧
          (∀ s : String, (TagBlock env args).ret = some (s, none) →
            (TagResource env args).ret = some (some ⟨[s]⟩, none))) := by
  constructor
  · intro t
    unfold HasResourceTagFn resourceTypeToFnMap
    by_cases h1 : t = "aws_autoscaling_group"
    · simp [h1]
    · by_cases h2 : t = "google_container_cluster"
      · simp [h2]
      · by_cases h3 : t = "azurerm_kubernetes_cluster"
        · simp [h3]
        · simp [h1, h2, h3]
  · intro args h1 h2 h3
    have hd : TagResource env args = defaultTaggingFn env args := by
      simp [TagResource, resourceTypeToFnMap, h1, h2, h3]
    refine ⟨hd, ?_, ?_⟩
    · intro s e hs
      rw [hd]
      simp [defaultTaggingFn, hs]
    · intro s hs
      rw [hd]
      simp [defaultTaggingFn, hs]

/-- The theorem above at a registered type, at the same name in another case, and at a block of
type `aws_instance` with a relocation step that succeeds and one that fails. -/
theorem TagResource_dispatch_witness :
    (HasResourceTagFn sampleEnv "aws_autoscaling_group" = true ↔
        ("aws_autoscaling_group" = "aws_autoscaling_group" ∨
          "aws_autoscaling_group" = "google_container_cluster" ∨
          "aws_autoscaling_group" = "azurerm_kubernetes_cluster")) ∧
      (HasResourceTagFn sampleEnv "AWS_autoscaling_group" = true ↔
        ("AWS_autoscaling_group" = "aws_autoscaling_group" ∨
          "AWS_autoscaling_group" = "google_container_cluster" ∨
          "AWS_autoscaling_group" = "azurerm_kubernetes_cluster")) ∧
      (TagResource sampleEnv (sampleArgs none ⟨1, 3⟩)).ret =
        some (some ⟨["local.terratag_added_main_tf"]⟩, none) ∧
      (TagResource failingEnv (sampleArgs none ⟨1, 3⟩)).ret =
        some (none, some ⟨"failed to remove found tags block"⟩) :=
  ⟨(TagResource_dispatch sampleEnv).1 "aws_autoscaling_group",
    (TagResource_dispatch sampleEnv).1 "AWS_autoscaling_group",
    ((TagResource_dispatch sampleEnv).2 (sampleArgs none ⟨1, 3⟩)
      (by decide) (by decide) (by decide)).2.2 "local.terratag_added_main_tf" rfl,
    ((TagResource_dispatch failingEnv).2 (sampleArgs none ⟨1, 3⟩)
      (by decide) (by decide) (by decide)).2.1 "" ⟨"failed to remove found tags block"⟩ rfl⟩

/-- C10: when relocation returns the error `e`, `TagBlock` returns the empty string with
`e`, the default strategy returns a nil result with `e`, `RemoveTerratagTags` returns a
result with an empty sequence with `e`, and each of them leaves the block and the prior-tags
index as the failed relocation left them. -/
theorem relocation_failure_propagates {Tok : Type} (env : Env Tok) (args : TagBlockArgs Tok)
    (moved : Moved Tok) (e : GoError)
    (hmoved : env.MoveExistingTags args.Filename args.Terratag args.Block args.TagId = moved)
    (herr : moved.err = some e) :
    ((TagBlock env args).ret = some ("", some e) ∧
        (TagBlock env args).Block = moved.Block ∧
        (TagBlock env args).Terratag = moved.Terratag) ∧
      ((defaultTaggingFn env args).ret = some (none, some e) ∧
        (defaultTaggingFn env args).Block = moved.Block ∧
        (defaultTaggingFn env args).Terratag = moved.Terratag) ∧
      ((RemoveTerratagTags env args).ret = some (some ⟨[]⟩, some e) ∧
        (RemoveTerratagTags env args).Block = moved.Block ∧
        (RemoveTerratagTags env args).Terratag = moved.Terratag) := by
  subst hmoved
  have ht : TagBlock env args =
      ⟨some ("", some e),
        (env.MoveExistingTags args.Filename args.Terratag args.Block args.TagId).Block,
        (env.MoveExistingTags args.Filename args.Terratag args.Block args.TagId).Terratag⟩ := by
    simp [TagBlock, herr]
  refine ⟨?_, ?_, ?_⟩
  · simp [ht]
  · simp [defaultTaggingFn, ht]
  · simp [RemoveTerratagTags, herr]

/-- The theorem above with a relocation step that fails. -/
theorem relocation_failure_propagates_witness :
    ((TagBlock failingEnv (sampleArgs (some "var.tags") ⟨1, 3⟩)).ret =
          some ("", some ⟨"failed to remove found tags block"⟩) ∧
        (TagBlock failingEnv (sampleArgs (some "var.tags") ⟨1, 3⟩)).Block =
          sampleBlock (some "var.tags") ∧
        (TagBlock failingEnv (sampleArgs (some "var.tags") ⟨1, 3⟩)).Terratag =
          ⟨fun _ => none, ""⟩) ∧
      ((defaultTaggingFn failingEnv (sampleArgs (some "var.tags") ⟨1, 3⟩)).ret =
          some (none, some ⟨"failed to remove found tags block"⟩) ∧
        (defaultTaggingFn failingEnv (sampleArgs (some "var.tags") ⟨1, 3⟩)).Block =
          sampleBlock (some "var.tags") ∧
        (defaultTaggingFn failingEnv (sampleArgs (some "var.tags") ⟨1, 3⟩)).Terratag =
          ⟨fun _ => none, ""⟩) ∧
      ((RemoveTerratagTags failingEnv (sampleArgs (some "var.tags") ⟨1, 3⟩)).ret =
          some (some ⟨[]⟩, some ⟨"failed to remove found tags block"⟩) ∧
        (RemoveTerratagTags failingEnv (sampleArgs (some "var.tags") ⟨1, 3⟩)).Block =
          sampleBlock (some "var.tags") ∧
        (RemoveTerratagTags failingEnv (sampleArgs (some "var.tags") ⟨1, 3⟩)).Terratag =
          ⟨fun _ => none, ""⟩) :=
  relocation_failure_propagates failingEnv (sampleArgs (some "var.tags") ⟨1, 3⟩)
    ⟨false, some ⟨"failed to remove found tags block"⟩, sampleBlock (some "var.tags"),
      ⟨fun _ => none, ""⟩⟩
    ⟨"failed to remove found tags block"⟩ rfl rfl

/-- C11 (amended): when relocation succeeds and the text to be written does not parse,
`TagBlock`, the default strategy and `RemoveTerratagTags` in its literal-found branch panic:
they return nothing to the caller, and the block and the prior-tags index stay as relocation
left them, so that the tag attribute is not written. -/
theorem parse_failure_panics {Tok : Type} (env : Env Tok) (args : TagBlockArgs Tok)
    (moved : Moved Tok) (base text s : String)
    (hmoved : env.MoveExistingTags args.Filename args.Terratag args.Block args.TagId = moved)
    (herr : moved.err = none)
    (hs : env.GetExistingTagsExpression
      (moved.Terratag.Found (env.GetResourceExistingTagsKey args.Filename moved.Block))
      args.TfVersion = s)
    (hbase : base = (if moved.hasExistingTags then
        "merge( " ++ s ++ ", local." ++ env.GetTerratagAddedKey args.Filename ++ ")"
      else "local." ++ env.GetTerratagAddedKey args.Filename))
    (htext : text = (if args.TfVersion.Major = 0 ∧ args.TfVersion.Minor = 11 then
        "\"$\x7b" ++ base ++ "\x7d\"" else base)) :
    (ParseHclValueStringToTokens env text = none →
        TagBlock env args = ⟨none, moved.Block, moved.Terratag⟩ ∧
        defaultTaggingFn env args = ⟨none, moved.Block, moved.Terratag⟩) ∧
      (moved.hasExistingTags = true → MatchString s = true →
        ParseHclValueStringToTokens env (FindString s) = none →
        RemoveTerratagTags env args = ⟨none, moved.Block, moved.Terratag⟩) := by
  subst hmoved
  subst hs
  subst hbase
  subst htext
  constructor
  · intro hp
    have ht : TagBlock env args =
        ⟨none, (env.MoveExistingTags args.Filename args.Terratag args.Block args.TagId).Block,
          (env.MoveExistingTags args.Filename args.Terratag args.Block args.TagId).Terratag⟩ := by
      simp only [TagBlock, herr, localRef_append, hp]
    exact ⟨ht, by simp [defaultTaggingFn, ht]⟩
  · intro hflag hm hp
    simp [RemoveTerratagTags, herr, hflag, hm, hp]

/-- The theorem above with a parser that rejects a comma outside all brackets and
unbalanced brackets: at a block whose tags are `merge( {a = 1}, {b = 2})`,
`RemoveTerratagTags` finds the literal `{a = 1}, {b = 2}`, which does not parse; at a file
named `a)b.tf` the text `TagBlock` synthesizes does not parse. -/
theorem parse_failure_panics_witness :
    RemoveTerratagTags strictEnv
        (sampleArgs (some "merge( \x7ba = 1\x7d, \x7bb = 2\x7d)") ⟨1, 3⟩) =
        ⟨none,
          (strictEnv.MoveExistingTags "main.tf" ⟨fun _ => none, ""⟩
            (sampleBlock (some "merge( \x7ba = 1\x7d, \x7bb = 2\x7d)")) "tags").Block,
          (strictEnv.MoveExistingTags "main.tf" ⟨fun _ => none, ""⟩
            (sampleBlock (some "merge( \x7ba = 1\x7d, \x7bb = 2\x7d)")) "tags").Terratag⟩ ∧
      (TagBlock strictEnv
          ⟨"a)b.tf", sampleBlock none, "", ⟨fun _ => none, ""⟩, "tags", ⟨1, 3⟩⟩ =
          ⟨none, sampleBlock none, ⟨fun _ => none, ""⟩⟩ ∧
        defaultTaggingFn strictEnv
          ⟨"a)b.tf", sampleBlock none, "", ⟨fun _ => none, ""⟩, "tags", ⟨1, 3⟩⟩ =
          ⟨none, sampleBlock none, ⟨fun _ => none, ""⟩⟩) :=
  ⟨(parse_failure_panics strictEnv
      (sampleArgs (some "merge( \x7ba = 1\x7d, \x7bb = 2\x7d)") ⟨1, 3⟩)
      (strictEnv.MoveExistingTags "main.tf" ⟨fun _ => none, ""⟩
        (sampleBlock (some "merge( \x7ba = 1\x7d, \x7bb = 2\x7d)")) "tags")
      "merge( merge( \x7ba = 1\x7d, \x7bb = 2\x7d), local.terratag_added_main_tf)"
      "merge( merge( \x7ba = 1\x7d, \x7bb = 2\x7d), local.terratag_added_main_tf)"
      "merge( \x7ba = 1\x7d, \x7bb = 2\x7d)"
      rfl rfl rfl rfl rfl).2 rfl (by decide) (by decide),
    (parse_failure_panics strictEnv
      ⟨"a)b.tf", sampleBlock none, "", ⟨fun _ => none, ""⟩, "tags", ⟨1, 3⟩⟩
      ⟨false, none, sampleBlock none, ⟨fun _ => none, ""⟩⟩
      "local.terratag_added_a)b_tf" "local.terratag_added_a)b_tf" ""
      rfl rfl rfl rfl rfl).1 (by decide)⟩

/-- C11 (counterexample): a block whose tags are `merge( {a = 1}, {b = 2})`. The literal
found is `{a = 1}, {b = 2}`, which is not an expression; `RemoveTerratagTags` panics: it
returns nothing, hence no error value, and the tag attribute keeps its value. Likewise
`TagBlock` panics for a file named `a)b.tf`, whose derived key makes the text
`local.terratag_added_a)b_tf`. -/
theorem parse_failure_not_an_error :
    FindString "merge( \x7ba = 1\x7d, \x7bb = 2\x7d)" = "\x7ba = 1\x7d, \x7bb = 2\x7d" ∧
      (RemoveTerratagTags strictEnv
        (sampleArgs (some "merge( \x7ba = 1\x7d, \x7bb = 2\x7d)") ⟨1, 3⟩)).ret = none ∧
      (¬ ∃ (v : Option Result) (e : GoError),
        (RemoveTerratagTags strictEnv
          (sampleArgs (some "merge( \x7ba = 1\x7d, \x7bb = 2\x7d)") ⟨1, 3⟩)).ret =
          some (v, some e)) ∧
      (RemoveTerratagTags strictEnv
        (sampleArgs (some "merge( \x7ba = 1\x7d, \x7bb = 2\x7d)") ⟨1, 3⟩)).Block.attrs "tags" =
        some "merge( \x7ba = 1\x7d, \x7bb = 2\x7d)" ∧
      (TagBlock strictEnv
        ⟨"a)b.tf", sampleBlock none, "", ⟨fun _ => none, ""⟩, "tags", ⟨1, 3⟩⟩).ret = none ∧
      (¬ ∃ (v : String) (e : GoError),
        (TagBlock strictEnv
          ⟨"a)b.tf", sampleBlock none, "", ⟨fun _ => none, ""⟩, "tags", ⟨1, 3⟩⟩).ret =
          some (v, some e)) := by
  have h1 : (RemoveTerratagTags strictEnv
      (sampleArgs (some "merge( \x7ba = 1\x7d, \x7bb = 2\x7d)") ⟨1, 3⟩)).ret = none := by
    decide
  have h2 : (TagBlock strictEnv
      ⟨"a)b.tf", sampleBlock none, "", ⟨fun _ => none, ""⟩, "tags", ⟨1, 3⟩⟩).ret = none := by
    decide
  refine ⟨by decide, h1, ?_, by decide, h2, ?_⟩
  · rintro ⟨v, e, h⟩
    rw [h1] at h
    exact Option.noConfusion h
  · rintro ⟨v, e, h⟩
    rw [h2] at h
    exact Option.noConfusion h

/-- C12: when `TagBlock` returns a text without error, the block it leaves is the relocated
block with the one attribute `TagId` written: every other attribute, the type name, the
labels and the nested blocks are as relocation left them, and so is the prior-tags index. -/
theorem TagBlock_frame {Tok : Type} (env : Env Tok) (args : TagBlockArgs Tok)
    (moved : Moved Tok) (r : String)
    (hmoved : env.MoveExistingTags args.Filename args.Terratag args.Block args.TagId = moved)
    (hr : (TagBlock env args).ret = some (r, none)) :
    (∃ toks : Tok, ParseHclValueStringToTokens env r = some toks ∧
        (TagBlock env args).Block = moved.Block.SetAttributeRaw args.TagId toks ∧
        (TagBlock env args).Block.attrs args.TagId = some toks) ∧
      (∀ n : String, n ≠ args.TagId →
        (TagBlock env args).Block.attrs n = moved.Block.attrs n) ∧
      (TagBlock env args).Block.typeName = moved.Block.typeName ∧
      (TagBlock env args).Block.labels = moved.Block.labels ∧
      (TagBlock env args).Block.nested = moved.Block.nested ∧
      (TagBlock env args).Terratag = moved.Terratag := by
  obtain ⟨herr, toks, hp⟩ := TagBlock_ret_inv env args moved r hmoved hr
  have htx := TagBlock_ret_text env args moved _ _ r hmoved rfl rfl hr
  have h1 := TagBlock_of_parse env args moved _ r toks hmoved herr rfl htx hp
  rw [h1]
  refine ⟨⟨toks, hp, rfl, by simp [Block.SetAttributeRaw]⟩, ?_, rfl, rfl, rfl, rfl⟩
  intro n hn
  simp [Block.SetAttributeRaw, hn]

/-- The theorem above at a block with the attributes `ami` and `tags`. -/
theorem TagBlock_frame_witness :
    (∃ toks : String,
        ParseHclValueStringToTokens sampleEnv "merge( var.tags, local.terratag_added_main_tf)" =
          some toks ∧
        (TagBlock sampleEnv
          ⟨"main.tf", ⟨"resource", ["aws_instance", "web"],
            fun n => if n = "tags" then some "var.tags"
              else if n = "ami" then some "\"ami-1\"" else none, []⟩,
            "", ⟨fun _ => none, ""⟩, "tags", ⟨1, 3⟩⟩).Block =
          (sampleEnv.MoveExistingTags "main.tf" ⟨fun _ => none, ""⟩
            ⟨"resource", ["aws_instance", "web"],
              fun n => if n = "tags" then some "var.tags"
                else if n = "ami" then some "\"ami-1\"" else none, []⟩
            "tags").Block.SetAttributeRaw "tags" toks ∧
        (TagBlock sampleEnv
          ⟨"main.tf", ⟨"resource", ["aws_instance", "web"],
            fun n => if n = "tags" then some "var.tags"
              else if n = "ami" then some "\"ami-1\"" else none, []⟩,
            "", ⟨fun _ => none, ""⟩, "tags", ⟨1, 3⟩⟩).Block.attrs "tags" = some toks) ∧
      (TagBlock sampleEnv
          ⟨"main.tf", ⟨"resource", ["aws_instance", "web"],
            fun n => if n = "tags" then some "var.tags"
              else if n = "ami" then some "\"ami-1\"" else none, []⟩,
            "", ⟨fun _ => none, ""⟩, "tags", ⟨1, 3⟩⟩).Block.attrs "ami" = some "\"ami-1\"" :=
  ⟨(TagBlock_frame sampleEnv
      ⟨"main.tf", ⟨"resource", ["aws_instance", "web"],
        fun n => if n = "tags" then some "var.tags"
          else if n = "ami" then some "\"ami-1\"" else none, []⟩,
        "", ⟨fun _ => none, ""⟩, "tags", ⟨1, 3⟩⟩
      (sampleEnv.MoveExistingTags "main.tf" ⟨fun _ => none, ""⟩
        ⟨"resource", ["aws_instance", "web"],
          fun n => if n = "tags" then some "var.tags"
            else if n = "ami" then some "\"ami-1\"" else none, []⟩
        "tags")
      "merge( var.tags, local.terratag_added_main_tf)" rfl rfl).1,
    (TagBlock_frame sampleEnv
      ⟨"main.tf", ⟨"resource", ["aws_instance", "web"],
        fun n => if n = "tags" then some "var.tags"
          else if n = "ami" then some "\"ami-1\"" else none, []⟩,
        "", ⟨fun _ => none, ""⟩, "tags", ⟨1, 3⟩⟩
      (sampleEnv.MoveExistingTags "main.tf" ⟨fun _ => none, ""⟩
        ⟨"resource", ["aws_instance", "web"],
          fun n => if n = "tags" then some "var.tags"
            else if n = "ami" then some "\"ami-1\"" else none, []⟩
        "tags")
      "merge( var.tags, local.terratag_added_main_tf)" rfl rfl).2.1 "ami" (by decide)⟩

/-- C13 (amended): the search is greedy. For every text in which some opening brace stands
before some closing brace, the pattern matches and the text found starts at the first
opening brace and ends at the last closing brace of the whole text, whatever stands in
between, newlines included. -/
theorem FindString_first_to_last (s : String) (a b c : List Char)
    (hs : s.data = a ++ '\x7b' :: (b ++ '\x7d' :: c)) :
    MatchString s = true ∧
      ∃ pre mid post : String, s = pre ++ ("\x7b" ++ mid ++ "\x7d") ++ post ∧
        '\x7b' ∉ pre.data ∧ '\x7d' ∉ post.data ∧ FindString s = "\x7b" ++ mid ++ "\x7d" := by
  have hm : MatchString s = true := (MatchString_iff_pair s).mpr ⟨a, b, c, hs⟩
  exact ⟨hm, FindString_of_match s hm⟩

/-- The theorem above at a text of two literals, the first one over two lines. -/
theorem FindString_first_to_last_witness :
    (MatchString "merge( \x7b\n a = 1\x7d, \x7bb = 2\x7d)" = true ∧
      ∃ pre mid post : String,
        "merge( \x7b\n a = 1\x7d, \x7bb = 2\x7d)" = pre ++ ("\x7b" ++ mid ++ "\x7d") ++ post ∧
        '\x7b' ∉ pre.data ∧ '\x7d' ∉ post.data ∧
        FindString "merge( \x7b\n a = 1\x7d, \x7bb = 2\x7d)" = "\x7b" ++ mid ++ "\x7d") ∧
      FindString "merge( \x7b\n a = 1\x7d, \x7bb = 2\x7d)" = "\x7b\n a = 1\x7d, \x7bb = 2\x7d" :=
  ⟨FindString_first_to_last "merge( \x7b\n a = 1\x7d, \x7bb = 2\x7d)" "merge( ".data
      "\n a = 1".data ", \x7bb = 2\x7d)".data rfl,
    by decide⟩

/-- C13 (counterexample): in `merge( {a = 1}, {b = 2})` the nearest closing brace after the
first opening brace ends `{a = 1}`, but the pattern finds `{a = 1}, {b = 2}`. -/
theorem FindString_not_nearest :
    MatchString "merge( \x7ba = 1\x7d, \x7bb = 2\x7d)" = true ∧
      FindString "merge( \x7ba = 1\x7d, \x7bb = 2\x7d)" = "\x7ba = 1\x7d, \x7bb = 2\x7d" ∧
      FindString "merge( \x7ba = 1\x7d, \x7bb = 2\x7d)" ≠ "\x7ba = 1\x7d" := by
  decide

/-- C14 (amended): when relocation reports prior tags and the prior-tags entry renders as
`s`, the call has three outcomes, exhaustive and exclusive. If no opening brace of `s` stands
before a closing brace, the tag attribute is removed, and only then. If there is such a pair,
the text found begins and ends with a brace and is a contiguous part of `s`; the tag
attribute is set to its tokens exactly when it parses, and when it does not parse the call
panics with the block and the index as relocation left them, and only then. -/
theorem RemoveTerratagTags_branch {Tok : Type} (env : Env Tok) (args : TagBlockArgs Tok)
    (moved : Moved Tok) (s : String)
    (hmoved : env.MoveExistingTags args.Filename args.Terratag args.Block args.TagId = moved)
    (herr : moved.err = none)
    (hflag : moved.hasExistingTags = true)
    (hs : env.GetExistingTagsExpression
      (moved.Terratag.Found (env.GetResourceExistingTagsKey args.Filename moved.Block))
      args.TfVersion = s) :
    ((∃ a b c : List Char, s.data = a ++ '\x7b' :: (b ++ '\x7d' :: c)) →
        ∃ pre mid post : String, s = pre ++ ("\x7b" ++ mid ++ "\x7d") ++ post ∧
          FindString s = "\x7b" ++ mid ++ "\x7d") ∧
      (RemoveTerratagTags env args =
          ⟨some (some ⟨[env.GetResourceExistingTagsKey args.Filename moved.Block]⟩, none),
            moved.Block.RemoveAttribute args.TagId, moved.Terratag⟩ ↔
        ¬ ∃ a b c : List Char, s.data = a ++ '\x7b' :: (b ++ '\x7d' :: c)) ∧
      (∀ toks : Tok,
        RemoveTerratagTags env args =
            ⟨some (some ⟨[FindString s]⟩, none), moved.Block.SetAttributeRaw args.TagId toks,
              moved.Terratag⟩ ∧
          ParseHclValueStringToTokens env (FindString s) = some toks ↔
        (∃ a b c : List Char, s.data = a ++ '\x7b' :: (b ++ '\x7d' :: c)) ∧
          ParseHclValueStringToTokens env (FindString s) = some toks) ∧
      (RemoveTerratagTags env args = ⟨none, moved.Block, moved.Terratag⟩ ↔
        (∃ a b c : List Char, s.data = a ++ '\x7b' :: (b ++ '\x7d' :: c)) ∧
          ParseHclValueStringToTokens env (FindString s) = none) := by
  have hno : MatchString s = false →
      RemoveTerratagTags env args =
        ⟨some (some ⟨[env.GetResourceExistingTagsKey args.Filename moved.Block]⟩, none),
          moved.Block.RemoveAttribute args.TagId, moved.Terratag⟩ := by
    intro hm
    subst hmoved
    subst hs
    simp [RemoveTerratagTags, herr, hflag, hm]
  have hpanic : MatchString s = true →
      ParseHclValueStringToTokens env (FindString s) = none →
      RemoveTerratagTags env args = ⟨none, moved.Block, moved.Terratag⟩ := by
    intro hm hp
    subst hmoved
    subst hs
    simp [RemoveTerratagTags, herr, hflag, hm, hp]
  have hwrite : MatchString s = true → ∀ toks : Tok,
      ParseHclValueStringToTokens env (FindString s) = some toks →
      RemoveTerratagTags env args =
        ⟨some (some ⟨[FindString s]⟩, none), moved.Block.SetAttributeRaw args.TagId toks,
          moved.Terratag⟩ :=
    fun hm toks ht =>
      RemoveTerratagTags_of_literal env args moved s toks hmoved herr hflag hs hm ht
  have hpair := MatchString_iff_pair s
  have hcases : MatchString s = false ∨ MatchString s = true := by
    cases MatchString s <;> simp
  refine ⟨?_, ?_, ?_, ?_⟩
  · intro hp
    obtain ⟨pre, mid, post, h1, _, _, h2⟩ := FindString_of_match s (hpair.mpr hp)
    exact ⟨pre, mid, post, h1, h2⟩
  · constructor
    · intro hrem hp
      have hm := hpair.mpr hp
      cases ht : ParseHclValueStringToTokens env (FindString s) with
      | none =>
        rw [hpanic hm ht] at hrem
        simp at hrem
      | some toks =>
        rw [hwrite hm toks ht] at hrem
        have hattr := congrArg (fun e => e.Block.attrs args.TagId) hrem
        simp [Block.SetAttributeRaw, Block.RemoveAttribute] at hattr
    · intro hp
      rcases hcases with hm | hm
      · exact hno hm
      · exact absurd (hpair.mp hm) hp
  · intro toks
    constructor
    · rintro ⟨hw, ht⟩
      refine ⟨?_, ht⟩
      rcases hcases with hm | hm
      · rw [hno hm] at hw
        have hattr := congrArg (fun e => e.Block.attrs args.TagId) hw
        simp [Block.SetAttributeRaw, Block.RemoveAttribute] at hattr
      · exact hpair.mp hm
    · rintro ⟨hp, ht⟩
      exact ⟨hwrite (hpair.mpr hp) toks ht, ht⟩
  · constructor
    · intro hpan
      rcases hcases with hm | hm
      · rw [hno hm] at hpan
        have hret := congrArg (fun e => e.ret) hpan
        simp at hret
      · refine ⟨hpair.mp hm, ?_⟩
        cases ht : ParseHclValueStringToTokens env (FindString s) with
        | none => rfl
        | some toks =>
          rw [hwrite hm toks ht] at hpan
          have hret := congrArg (fun e => e.ret) hpan
          simp at hret
    · rintro ⟨hp, ht⟩
      exact hpanic (hpair.mpr hp) ht

/-- The theorem above at a block whose tags render as the string `"}{"`, where the closing
brace precedes the opening brace (the tag attribute is removed), at a block whose tags render as
`merge( {a = 1}, var.x)` (the tag attribute is set to `{a = 1}`), and at a block whose tags
render as `merge( {a = 1}, {b = 2})` with a parser that rejects the text found (panic). -/
theorem RemoveTerratagTags_branch_witness :
    RemoveTerratagTags sampleEnv (sampleArgs (some "\"\x7d\x7b\"") ⟨1, 3⟩) =
        ⟨some (some ⟨[sampleEnv.GetResourceExistingTagsKey "main.tf"
            (sampleEnv.MoveExistingTags "main.tf" ⟨fun _ => none, ""⟩
              (sampleBlock (some "\"\x7d\x7b\"")) "tags").Block]⟩, none),
          (sampleEnv.MoveExistingTags "main.tf" ⟨fun _ => none, ""⟩
            (sampleBlock (some "\"\x7d\x7b\"")) "tags").Block.RemoveAttribute "tags",
          (sampleEnv.MoveExistingTags "main.tf" ⟨fun _ => none, ""⟩
            (sampleBlock (some "\"\x7d\x7b\"")) "tags").Terratag⟩ ∧
      (RemoveTerratagTags sampleEnv (sampleArgs (some "merge( \x7ba = 1\x7d, var.x)") ⟨1, 3⟩) =
          ⟨some (some ⟨[FindString "merge( \x7ba = 1\x7d, var.x)"]⟩, none),
            (sampleEnv.MoveExistingTags "main.tf" ⟨fun _ => none, ""⟩
              (sampleBlock (some "merge( \x7ba = 1\x7d, var.x)")) "tags").Block.SetAttributeRaw
              "tags" "\x7ba = 1\x7d",
            (sampleEnv.MoveExistingTags "main.tf" ⟨fun _ => none, ""⟩
              (sampleBlock (some "merge( \x7ba = 1\x7d, var.x)")) "tags").Terratag⟩ ∧
        ParseHclValueStringToTokens sampleEnv (FindString "merge( \x7ba = 1\x7d, var.x)") =
          some "\x7ba = 1\x7d") ∧
      RemoveTerratagTags strictEnv
          (sampleArgs (some "merge( \x7ba = 1\x7d, \x7bb = 2\x7d)") ⟨1, 3⟩) =
        ⟨none,
          (strictEnv.MoveExistingTags "main.tf" ⟨fun _ => none, ""⟩
            (sampleBlock (some "merge( \x7ba = 1\x7d, \x7bb = 2\x7d)")) "tags").Block,
          (strictEnv.MoveExistingTags "main.tf" ⟨fun _ => none, ""⟩
            (sampleBlock (some "merge( \x7ba = 1\x7d, \x7bb = 2\x7d)")) "tags").Terratag⟩ :=
  ⟨((RemoveTerratagTags_branch sampleEnv (sampleArgs (some "\"\x7d\x7b\"") ⟨1, 3⟩)
      (sampleEnv.MoveExistingTags "main.tf" ⟨fun _ => none, ""⟩ (sampleBlock (some "\"\x7d\x7b\""))
        "tags")
      "\"\x7d\x7b\"" rfl rfl rfl rfl).2.1).mpr
      (fun hp => absurd ((MatchString_iff_pair "\"\x7d\x7b\"").mpr hp) (by decide)),
    ((RemoveTerratagTags_branch sampleEnv
      (sampleArgs (some "merge( \x7ba = 1\x7d, var.x)") ⟨1, 3⟩)
      (sampleEnv.MoveExistingTags "main.tf" ⟨fun _ => none, ""⟩
        (sampleBlock (some "merge( \x7ba = 1\x7d, var.x)")) "tags")
      "merge( \x7ba = 1\x7d, var.x)" rfl rfl rfl rfl).2.2.1 "\x7ba = 1\x7d").mpr
      ⟨⟨"merge( ".data, "a = 1".data, ", var.x)".data, rfl⟩, rfl⟩,
    ((RemoveTerratagTags_branch strictEnv
      (sampleArgs (some "merge( \x7ba = 1\x7d, \x7bb = 2\x7d)") ⟨1, 3⟩)
      (strictEnv.MoveExistingTags "main.tf" ⟨fun _ => none, ""⟩
        (sampleBlock (some "merge( \x7ba = 1\x7d, \x7bb = 2\x7d)")) "tags")
      "merge( \x7ba = 1\x7d, \x7bb = 2\x7d)" rfl rfl rfl rfl).2.2.2).mpr
      ⟨⟨"merge( ".data, "a = 1".data, ", \x7bb = 2\x7d)".data, rfl⟩, by decide⟩⟩

/-- C14 (counterexample): the tags render as `merge( {a = 1}, {b = 2})`, in which an opening
brace stands before a closing brace. The text found is `{a = 1}, {b = 2}`, which is not an
expression: the call panics and the tag attribute is neither overwritten with a literal nor
removed, it keeps its value. -/
theorem RemoveTerratagTags_third_outcome :
    MatchString "merge( \x7ba = 1\x7d, \x7bb = 2\x7d)" = true ∧
      (strictEnv.MoveExistingTags "main.tf" ⟨fun _ => none, ""⟩
        (sampleBlock (some "merge( \x7ba = 1\x7d, \x7bb = 2\x7d)")) "tags").hasExistingTags =
        true ∧
      (RemoveTerratagTags strictEnv
        (sampleArgs (some "merge( \x7ba = 1\x7d, \x7bb = 2\x7d)") ⟨1, 3⟩)).ret = none ∧
      (RemoveTerratagTags strictEnv
        (sampleArgs (some "merge( \x7ba = 1\x7d, \x7bb = 2\x7d)") ⟨1, 3⟩)).Block.attrs "tags" =
        some "merge( \x7ba = 1\x7d, \x7bb = 2\x7d)" ∧
      (RemoveTerratagTags strictEnv
        (sampleArgs (some "merge( \x7ba = 1\x7d, \x7bb = 2\x7d)") ⟨1, 3⟩)).Block.attrs "tags" ≠
        some (FindString "merge( \x7ba = 1\x7d, \x7bb = 2\x7d)") ∧
      (RemoveTerratagTags strictEnv
        (sampleArgs (some "merge( \x7ba = 1\x7d, \x7bb = 2\x7d)") ⟨1, 3⟩)).Block.attrs "tags" ≠
        none := by
  decide

/-- C15: two argument structs that differ only in the field `Tags` give the same run of
`TagBlock` (same returned text and error, same block, same index) and the same run of
`RemoveTerratagTags`; and a text `TagBlock` returns is made of the key derived from the
filename, the rendered prior-tags entry and the version alone. -/
theorem Tags_field_ignored {Tok : Type} (env : Env Tok) (args args2 : TagBlockArgs Tok)
    (moved : Moved Tok)
    (hfile : args2.Filename = args.Filename)
    (hblock : args2.Block = args.Block)
    (hterratag : args2.Terratag = args.Terratag)
    (htagid : args2.TagId = args.TagId)
    (hversion : args2.TfVersion = args.TfVersion)
    (hmoved : env.MoveExistingTags args.Filename args.Terratag args.Block args.TagId = moved) :
    TagBlock env args2 = TagBlock env args ∧
      RemoveTerratagTags env args2 = RemoveTerratagTags env args ∧
      (∀ r : String, (TagBlock env args).ret = some (r, none) →
        (r = "local." ++ env.GetTerratagAddedKey args.Filename ∨
          r = "merge( " ++ env.GetExistingTagsExpression
              (moved.Terratag.Found (env.GetResourceExistingTagsKey args.Filename moved.Block))
              args.TfVersion ++ ", local." ++ env.GetTerratagAddedKey args.Filename ++ ")" ∨
          r = "\"$\x7b" ++ ("local." ++ env.GetTerratagAddedKey args.Filename) ++ "\x7d\"" ∨
          r = "\"$\x7b" ++ ("merge( " ++ env.GetExistingTagsExpression
              (moved.Terratag.Found (env.GetResourceExistingTagsKey args.Filename moved.Block))
              args.TfVersion ++ ", local." ++ env.GetTerratagAddedKey args.Filename ++ ")") ++
            "\x7d\"")) := by
  refine ⟨?_, ?_, ?_⟩
  · cases args
    cases args2
    simp only at hfile hblock hterratag htagid hversion
    subst hfile hblock hterratag htagid hversion
    rfl
  · cases args
    cases args2
    simp only at hfile hblock hterratag htagid hversion
    subst hfile hblock hterratag htagid hversion
    rfl
  · intro r hr
    have htx := TagBlock_ret_text env args moved _ _ r hmoved rfl rfl hr
    rw [htx]
    by_cases hv : args.TfVersion.Major = 0 ∧ args.TfVersion.Minor = 11
    · by_cases hf : moved.hasExistingTags = true
      · simp [hv, hf]
      · simp [hv, hf]
    · by_cases hf : moved.hasExistingTags = true
      · simp [hv, hf]
      · simp [hv, hf]

/-- The theorem above at two argument structs whose `Tags` fields differ. -/
theorem Tags_field_ignored_witness :
    TagBlock sampleEnv
        ⟨"main.tf", sampleBlock (some "var.tags"), "\x7b\"owner\":\"ops\"\x7d",
          ⟨fun _ => none, ""⟩, "tags", ⟨1, 3⟩⟩ =
        TagBlock sampleEnv (sampleArgs (some "var.tags") ⟨1, 3⟩) ∧
      RemoveTerratagTags sampleEnv
        ⟨"main.tf", sampleBlock (some "var.tags"), "\x7b\"owner\":\"ops\"\x7d",
          ⟨fun _ => none, ""⟩, "tags", ⟨1, 3⟩⟩ =
        RemoveTerratagTags sampleEnv (sampleArgs (some "var.tags") ⟨1, 3⟩) :=
  ⟨(Tags_field_ignored sampleEnv (sampleArgs (some "var.tags") ⟨1, 3⟩)
      ⟨"main.tf", sampleBlock (some "var.tags"), "\x7b\"owner\":\"ops\"\x7d",
        ⟨fun _ => none, ""⟩, "tags", ⟨1, 3⟩⟩
      (sampleEnv.MoveExistingTags "main.tf" ⟨fun _ => none, ""⟩ (sampleBlock (some "var.tags"))
        "tags")
      rfl rfl rfl rfl rfl rfl).1,
    (Tags_field_ignored sampleEnv (sampleArgs (some "var.tags") ⟨1, 3⟩)
      ⟨"main.tf", sampleBlock (some "var.tags"), "\x7b\"owner\":\"ops\"\x7d",
        ⟨fun _ => none, ""⟩, "tags", ⟨1, 3⟩⟩
      (sampleEnv.MoveExistingTags "main.tf" ⟨fun _ => none, ""⟩ (sampleBlock (some "var.tags"))
        "tags")
      rfl rfl rfl rfl rfl rfl).2.1⟩

end Terratag
